import Mathlib

/-!
Servo driver of the Spark Core firmware (`src/spark_wiring_servo.cpp`).

A shallow embedding of the servo driver: the timer configuration arithmetic
(`SERVO_PRESCALER`, `SERVO_OVERFLOW`), the unit conversions built on `map`, and the
methods of `class Servo` as functions on an explicit instance/hardware state.

Machine integers are `Nat`/`Int` with explicit reductions: `uint16_t`, `uint32_t`
values are naturals reduced modulo `2^16`, `2^32`; `int16_t`, `int32_t` values are
integers wrapped into the two's complement range.
-/

namespace SparkServo

/-! ## Machine integer conversions -/

/-- Conversion of an integer to `uint16_t`: reduction modulo `2^16`. -/
def toU16 (x : Int) : Nat := (x % 65536).toNat

/-- Conversion of an integer to `uint32_t`: reduction modulo `2^32`. -/
def toU32 (x : Int) : Nat := (x % 4294967296).toNat

/-- Conversion of an integer to `int16_t`: two's complement wrap into `[-2^15, 2^15)`. -/
def toI16 (x : Int) : Int := (x + 32768) % 65536 - 32768

/-- Conversion of an integer to `int32_t`: two's complement wrap into `[-2^31, 2^31)`. -/
def toI32 (x : Int) : Int := (x + 2147483648) % 4294967296 - 2147483648

/-! ## Timer configuration arithmetic (source lines 32-44) -/

/-- The macro `MAX_OVERFLOW`, `((1 << 16) - 1)`. -/
def MAX_OVERFLOW : Nat := (1 <<< 16) - 1

/-- The macro `CYC_MSEC`, `(SystemCoreClock / 1000)`, in `uint32_t` arithmetic. -/
def CYC_MSEC (SystemCoreClock : Nat) : Nat := SystemCoreClock / 1000

/-- The macro `TAU_MSEC`. -/
def TAU_MSEC : Nat := 20

/-- The macro `TAU_USEC`, `(TAU_MSEC * 1000)`. -/
def TAU_USEC : Nat := TAU_MSEC * 1000

/-- The macro `TAU_CYC`, `(TAU_MSEC * CYC_MSEC)`, in `uint32_t` arithmetic. -/
def TAU_CYC (SystemCoreClock : Nat) : Nat := (TAU_MSEC * CYC_MSEC SystemCoreClock) % 4294967296

/-- The macro `SERVO_PRESCALER`, `(TAU_CYC / MAX_OVERFLOW + 1)`, in `uint32_t` arithmetic. -/
def SERVO_PRESCALER (SystemCoreClock : Nat) : Nat :=
  (TAU_CYC SystemCoreClock / MAX_OVERFLOW + 1) % 4294967296

/-- The value of `round((double)n / d)` for `uint32_t` operands `n`, `d` with `d > 0`:
the quotient rounded to the nearest integer, halves away from zero. Both operands convert
to `double` exactly, a half-integer quotient below `2^32` is a `double`, and any other
quotient is at least `1 / (2 * d)` away from a half-integer, far more than the rounding
error of the division, so the result is the rounding of the exact quotient. -/
def roundDiv (n d : Nat) : Nat := (2 * n + d) / (2 * d)

/-- The macro `SERVO_OVERFLOW` before its cast,
`round((double)TAU_CYC / SERVO_PRESCALER)`. -/
def SERVO_OVERFLOW_exact (SystemCoreClock : Nat) : Nat :=
  roundDiv (TAU_CYC SystemCoreClock) (SERVO_PRESCALER SystemCoreClock)

/-- The macro `SERVO_OVERFLOW`, `((uint16_t)round((double)TAU_CYC / SERVO_PRESCALER))`. -/
def SERVO_OVERFLOW (SystemCoreClock : Nat) : Nat :=
  toU16 (SERVO_OVERFLOW_exact SystemCoreClock)

/-! ## Unit conversions (source lines 46-52) -/

/-- Modelled from the spec: the linear interpolation primitive `map`, which is declared
outside this file: `outMin + (value - inMin) * (outMax - outMin) / (inMax - inMin)` with
truncating integer division, on 32-bit signed integers. Every intermediate result is
wrapped to `int32_t`; a zero divisor gives quotient `0`, as the Cortex-M3 `SDIV`
instruction does. -/
def map (value fromStart fromEnd toStart toEnd : Int) : Int :=
  toI32 (toI32 (Int.tdiv (toI32 (toI32 (value - fromStart) * toI32 (toEnd - toStart)))
    (toI32 (fromEnd - fromStart))) + toStart)

/-- Modelled from the spec: the clamping macro `constrain(amt, low, high)`, which is
defined outside this file: `amt < low ? low : (amt > high ? high : amt)`. -/
def constrain (amt low high : Int) : Int :=
  if amt < low then low else if amt > high then high else amt

/-- The macro `US_TO_COMPARE(us)`,
`((uint16_t)map((us), 0, TAU_USEC, 0, SERVO_OVERFLOW))`. -/
def US_TO_COMPARE (SystemCoreClock : Nat) (us : Int) : Nat :=
  toU16 (map us 0 TAU_USEC 0 (SERVO_OVERFLOW SystemCoreClock))

/-- The macro `CAPTURE_TO_US(c)`,
`((uint32_t)map((c), 0, SERVO_OVERFLOW, 0, TAU_USEC))`. -/
def CAPTURE_TO_US (SystemCoreClock : Nat) (c : Int) : Nat :=
  toU32 (map c 0 (SERVO_OVERFLOW SystemCoreClock) 0 TAU_USEC)

/-! ## Hardware description and register state -/

/-- The timer peripherals a pin can be wired to (`TIM_TypeDef *` values). -/
inductive TIM_TypeDef where
  | TIM1
  | TIM2
  | TIM3
  | TIM4
  deriving DecidableEq, Repr

/-- The constant `TIM_Channel_1` of the peripheral library. -/
def TIM_Channel_1 : Nat := 0x0000
/-- The constant `TIM_Channel_2` of the peripheral library. -/
def TIM_Channel_2 : Nat := 0x0004
/-- The constant `TIM_Channel_3` of the peripheral library. -/
def TIM_Channel_3 : Nat := 0x0008
/-- The constant `TIM_Channel_4` of the peripheral library. -/
def TIM_Channel_4 : Nat := 0x000C

/-- An entry of `PIN_MAP`: the timer peripheral of the pin (`none` for `NULL`) and its
channel. Only the two fields the driver reads are kept. -/
structure STM32_Pin_Info where
  timer_peripheral : Option TIM_TypeDef
  timer_ch : Nat
  deriving DecidableEq, Repr

/-- The board description the driver is compiled against: the pin table and the pin
constants, all of which are declared outside this file. -/
structure Board where
  TOTAL_PINS : Nat
  PIN_MAP : Nat → STM32_Pin_Info
  SCK : Nat
  MOSI : Nat
  MISO : Nat
  SCL : Nat
  SDA : Nat
  RX : Nat
  TX : Nat
  NOT_ATTACHED : Int

/-- Output-compare configuration of one timer channel, as written by `TIM_OCxInit` and
`TIM_OCxPreloadConfig`. -/
structure OCConfig where
  pwm1Mode : Bool
  outputEnabled : Bool
  polarityHigh : Bool
  preload : Bool
  deriving DecidableEq, Repr

/-- The registers of one timer peripheral that the driver touches. -/
structure TimRegs where
  period : Nat
  prescaler : Nat
  clockDivision : Nat
  counterModeUp : Bool
  arrPreload : Bool
  counterEnabled : Bool
  CCR1 : Nat
  CCR2 : Nat
  CCR3 : Nat
  CCR4 : Nat
  OC1 : OCConfig
  OC2 : OCConfig
  OC3 : OCConfig
  OC4 : OCConfig
  deriving DecidableEq, Repr

/-- Pin modes; the driver only ever selects `AF_OUTPUT_PUSHPULL`. -/
inductive PinMode where
  | OTHER
  | AF_OUTPUT_PUSHPULL
  deriving DecidableEq, Repr

/-- The global hardware state the driver reads and writes. -/
structure Hardware where
  SystemCoreClock : Nat
  spiEnabled : Bool
  wireEnabled : Bool
  serial1Enabled : Bool
  afioClock : Bool
  timClock : TIM_TypeDef → Bool
  pinModes : Nat → PinMode
  tim : TIM_TypeDef → TimRegs

/-- Applies a register update to one timer peripheral. A `NULL` peripheral leaves the
modelled registers alone. -/
def Hardware.onTimer (hw : Hardware) (t : Option TIM_TypeDef) (f : TimRegs → TimRegs) :
    Hardware :=
  match t with
  | none => hw
  | some x => { hw with tim := Function.update hw.tim x (f (hw.tim x)) }

/-! ### Modelled peripheral library primitives -/

/-- Modelled from the spec: the peripheral clock enable primitive for `RCC_APB2Periph_AFIO`. -/
def RCC_APB2PeriphClockCmd_AFIO (hw : Hardware) : Hardware := { hw with afioClock := true }

/-- Modelled from the spec: the peripheral clock enable primitive for a timer block. -/
def RCC_APB1PeriphClockCmd (t : TIM_TypeDef) (hw : Hardware) : Hardware :=
  { hw with timClock := Function.update hw.timClock t true }

/-- Modelled from the spec: the pin-mode configuration primitive. -/
def pinMode (pin : Nat) (m : PinMode) (hw : Hardware) : Hardware :=
  { hw with pinModes := Function.update hw.pinModes pin m }

/-- Modelled from the spec: time-base init, with the `uint16_t` fields `TIM_Period`,
`TIM_Prescaler`, `TIM_ClockDivision` and the counter mode `TIM_CounterMode_Up`. -/
def TIM_TimeBaseInit (t : Option TIM_TypeDef) (TIM_Period TIM_Prescaler TIM_ClockDivision : Nat)
    (hw : Hardware) : Hardware :=
  hw.onTimer t fun r =>
    { r with period := TIM_Period, prescaler := TIM_Prescaler,
             clockDivision := TIM_ClockDivision, counterModeUp := true }

/-- The output-compare settings `attach` puts in `TIM_OCInitStructure`
(`TIM_OCMode_PWM1`, `TIM_OutputState_Enable`, `TIM_OCPolarity_High`). -/
def pwm1Config (old : OCConfig) : OCConfig :=
  { old with pwm1Mode := true, outputEnabled := true, polarityHigh := true }

/-- Modelled from the spec: per-channel output-compare init of channel 1 with `TIM_Pulse`. -/
def TIM_OC1Init (t : Option TIM_TypeDef) (TIM_Pulse : Nat) (hw : Hardware) : Hardware :=
  hw.onTimer t fun r => { r with OC1 := pwm1Config r.OC1, CCR1 := TIM_Pulse }
/-- Modelled from the spec: per-channel output-compare init of channel 2 with `TIM_Pulse`. -/
def TIM_OC2Init (t : Option TIM_TypeDef) (TIM_Pulse : Nat) (hw : Hardware) : Hardware :=
  hw.onTimer t fun r => { r with OC2 := pwm1Config r.OC2, CCR2 := TIM_Pulse }
/-- Modelled from the spec: per-channel output-compare init of channel 3 with `TIM_Pulse`. -/
def TIM_OC3Init (t : Option TIM_TypeDef) (TIM_Pulse : Nat) (hw : Hardware) : Hardware :=
  hw.onTimer t fun r => { r with OC3 := pwm1Config r.OC3, CCR3 := TIM_Pulse }
/-- Modelled from the spec: per-channel output-compare init of channel 4 with `TIM_Pulse`. -/
def TIM_OC4Init (t : Option TIM_TypeDef) (TIM_Pulse : Nat) (hw : Hardware) : Hardware :=
  hw.onTimer t fun r => { r with OC4 := pwm1Config r.OC4, CCR4 := TIM_Pulse }

/-- Modelled from the spec: preload enable of channel 1. -/
def TIM_OC1PreloadConfig (t : Option TIM_TypeDef) (hw : Hardware) : Hardware :=
  hw.onTimer t fun r => { r with OC1 := { r.OC1 with preload := true } }
/-- Modelled from the spec: preload enable of channel 2. -/
def TIM_OC2PreloadConfig (t : Option TIM_TypeDef) (hw : Hardware) : Hardware :=
  hw.onTimer t fun r => { r with OC2 := { r.OC2 with preload := true } }
/-- Modelled from the spec: preload enable of channel 3. -/
def TIM_OC3PreloadConfig (t : Option TIM_TypeDef) (hw : Hardware) : Hardware :=
  hw.onTimer t fun r => { r with OC3 := { r.OC3 with preload := true } }
/-- Modelled from the spec: preload enable of channel 4. -/
def TIM_OC4PreloadConfig (t : Option TIM_TypeDef) (hw : Hardware) : Hardware :=
  hw.onTimer t fun r => { r with OC4 := { r.OC4 with preload := true } }

/-- Modelled from the spec: auto-reload preload enable. -/
def TIM_ARRPreloadConfig (t : Option TIM_TypeDef) (hw : Hardware) : Hardware :=
  hw.onTimer t fun r => { r with arrPreload := true }

/-- Modelled from the spec: counter enable/disable. -/
def TIM_Cmd (t : Option TIM_TypeDef) (enable : Bool) (hw : Hardware) : Hardware :=
  hw.onTimer t fun r => { r with counterEnabled := enable }

/-- Modelled from the spec: compare-value set of channel 1 (a `uint16_t` argument). -/
def TIM_SetCompare1 (t : Option TIM_TypeDef) (v : Nat) (hw : Hardware) : Hardware :=
  hw.onTimer t fun r => { r with CCR1 := v }
/-- Modelled from the spec: compare-value set of channel 2 (a `uint16_t` argument). -/
def TIM_SetCompare2 (t : Option TIM_TypeDef) (v : Nat) (hw : Hardware) : Hardware :=
  hw.onTimer t fun r => { r with CCR2 := v }
/-- Modelled from the spec: compare-value set of channel 3 (a `uint16_t` argument). -/
def TIM_SetCompare3 (t : Option TIM_TypeDef) (v : Nat) (hw : Hardware) : Hardware :=
  hw.onTimer t fun r => { r with CCR3 := v }
/-- Modelled from the spec: compare-value set of channel 4 (a `uint16_t` argument). -/
def TIM_SetCompare4 (t : Option TIM_TypeDef) (v : Nat) (hw : Hardware) : Hardware :=
  hw.onTimer t fun r => { r with CCR4 := v }

/-- Reads a register of a timer peripheral; a `NULL` peripheral reads as `0`. -/
def Hardware.readTimer (hw : Hardware) (t : Option TIM_TypeDef) (f : TimRegs → Nat) : Nat :=
  match t with
  | none => 0
  | some x => f (hw.tim x)

/-- Modelled from the spec: compare-value get of channel 1. -/
def TIM_GetCapture1 (t : Option TIM_TypeDef) (hw : Hardware) : Nat := hw.readTimer t (·.CCR1)
/-- Modelled from the spec: compare-value get of channel 2. -/
def TIM_GetCapture2 (t : Option TIM_TypeDef) (hw : Hardware) : Nat := hw.readTimer t (·.CCR2)
/-- Modelled from the spec: compare-value get of channel 3. -/
def TIM_GetCapture3 (t : Option TIM_TypeDef) (hw : Hardware) : Nat := hw.readTimer t (·.CCR3)
/-- Modelled from the spec: compare-value get of channel 4. -/
def TIM_GetCapture4 (t : Option TIM_TypeDef) (hw : Hardware) : Nat := hw.readTimer t (·.CCR4)

/-! ## The `Servo` class -/

/-- Modelled from the spec: default minimum pulse width, in microseconds. -/
def SERVO_DEFAULT_MIN_PW : Nat := 544
/-- Modelled from the spec: default maximum pulse width, in microseconds. -/
def SERVO_DEFAULT_MAX_PW : Nat := 2400
/-- Modelled from the spec: default minimum angle, in degrees. -/
def SERVO_DEFAULT_MIN_ANGLE : Int := 0
/-- Modelled from the spec: default maximum angle, in degrees. -/
def SERVO_DEFAULT_MAX_ANGLE : Int := 180

/-- The fields of a `Servo` instance. `minPW`, `maxPW` are `uint16_t` and `minAngle`,
`maxAngle` are `int16_t` values; `pin` holds a pin number or `NOT_ATTACHED`, its
declaration lies outside this file and it stores every valid pin number unchanged. -/
structure Servo where
  pin : Int
  minPW : Nat
  maxPW : Nat
  minAngle : Int
  maxAngle : Int
  deriving DecidableEq, Repr

/-- The macro `ANGLE_TO_US(a)`. -/
def Servo.ANGLE_TO_US (this : Servo) (a : Int) : Nat :=
  toU16 (map a this.minAngle this.maxAngle this.minPW this.maxPW)

/-- The macro `US_TO_ANGLE(us)`. -/
def Servo.US_TO_ANGLE (this : Servo) (us : Int) : Int :=
  toI16 (map us this.minPW this.maxPW this.minAngle this.maxAngle)

/-- `Servo::resetFields`. -/
def Servo.resetFields (b : Board) (this : Servo) : Servo :=
  { this with
    pin := b.NOT_ATTACHED
    minAngle := SERVO_DEFAULT_MIN_ANGLE
    maxAngle := SERVO_DEFAULT_MAX_ANGLE
    minPW := SERVO_DEFAULT_MIN_PW
    maxPW := SERVO_DEFAULT_MAX_PW }

/-- The constructor `Servo::Servo`. -/
def Servo.new (b : Board) : Servo :=
  Servo.resetFields b ⟨0, 0, 0, 0, 0⟩

/-- Modelled from the spec: the predicate `attached()`, `pin != NOT_ATTACHED`. -/
def Servo.attached (b : Board) (this : Servo) : Bool := this.pin != b.NOT_ATTACHED

/-- The entry `PIN_MAP[this->pin]`. -/
def Servo.pinInfo (b : Board) (this : Servo) : STM32_Pin_Info := b.PIN_MAP this.pin.toNat

/-- `Servo::detach`: the result flag, the instance and the hardware afterwards. -/
def Servo.detach (b : Board) (this : Servo) (hw : Hardware) : Bool × Servo × Hardware :=
  if !this.attached b then (false, this, hw)
  else
    -- TIM disable counter
    let hw := TIM_Cmd (this.pinInfo b).timer_peripheral false hw
    let this := this.resetFields b
    (true, this, hw)

/-- Source lines 100-111 of `Servo::attach`: AFIO clock enable, pin mode, TIM clock
enable. -/
def attachClocks (b : Board) (pin : Nat) (hw : Hardware) : Hardware :=
  -- AFIO clock enable
  let hw := RCC_APB2PeriphClockCmd_AFIO hw
  let hw := pinMode pin PinMode.AF_OUTPUT_PUSHPULL hw
  -- TIM clock enable
  if (b.PIN_MAP pin).timer_peripheral == some TIM_TypeDef.TIM2 then
    RCC_APB1PeriphClockCmd TIM_TypeDef.TIM2 hw
  else if (b.PIN_MAP pin).timer_peripheral == some TIM_TypeDef.TIM3 then
    RCC_APB1PeriphClockCmd TIM_TypeDef.TIM3 hw
  else if (b.PIN_MAP pin).timer_peripheral == some TIM_TypeDef.TIM4 then
    RCC_APB1PeriphClockCmd TIM_TypeDef.TIM4 hw
  else hw

/-- Source lines 113-119 of `Servo::attach`: the time base configuration, whose fields
`TIM_Period` and `TIM_Prescaler` are `uint16_t`. -/
def attachTimeBase (b : Board) (pin : Nat) (hw : Hardware) : Hardware :=
  TIM_TimeBaseInit (b.PIN_MAP pin).timer_peripheral
    (SERVO_OVERFLOW hw.SystemCoreClock)
    (toU16 ((SERVO_PRESCALER hw.SystemCoreClock : Int) - 1)) 0 hw

/-- Source lines 121-150 of `Servo::attach`: PWM1 mode configuration of the channel of
`this->pin`, with `TIM_Pulse = 0x0000`. -/
def Servo.attachChannel (b : Board) (this : Servo) (hw : Hardware) : Hardware :=
  if (this.pinInfo b).timer_ch == TIM_Channel_1 then
    TIM_OC1PreloadConfig (this.pinInfo b).timer_peripheral
      (TIM_OC1Init (this.pinInfo b).timer_peripheral 0x0000 hw)
  else if (this.pinInfo b).timer_ch == TIM_Channel_2 then
    TIM_OC2PreloadConfig (this.pinInfo b).timer_peripheral
      (TIM_OC2Init (this.pinInfo b).timer_peripheral 0x0000 hw)
  else if (this.pinInfo b).timer_ch == TIM_Channel_3 then
    TIM_OC3PreloadConfig (this.pinInfo b).timer_peripheral
      (TIM_OC3Init (this.pinInfo b).timer_peripheral 0x0000 hw)
  else if (this.pinInfo b).timer_ch == TIM_Channel_4 then
    TIM_OC4PreloadConfig (this.pinInfo b).timer_peripheral
      (TIM_OC4Init (this.pinInfo b).timer_peripheral 0x0000 hw)
  else hw

/-- The part of `Servo::attach` after the safety checks (source lines 87-157). -/
def Servo.attachConfigure (b : Board) (this : Servo) (hw : Hardware) (pin minPW maxPW : Nat)
    (minAngle maxAngle : Int) : Servo × Hardware :=
  let d := if this.attached b then (this.detach b hw).2 else (this, hw)
  let this := { d.1 with pin := pin, minPW := minPW, maxPW := maxPW,
                         minAngle := minAngle, maxAngle := maxAngle }
  let hw := attachClocks b pin d.2
  let hw := attachTimeBase b pin hw
  let hw := this.attachChannel b hw
  let hw := TIM_ARRPreloadConfig (this.pinInfo b).timer_peripheral hw
  -- TIM enable counter
  let hw := TIM_Cmd (this.pinInfo b).timer_peripheral true hw
  (this, hw)

/-- `Servo::attach`: the result flag, the instance and the hardware afterwards. The
arguments `pin`, `minPW`, `maxPW` are `uint16_t`, `minAngle`, `maxAngle` are `int16_t`. -/
def Servo.attach (b : Board) (this : Servo) (hw : Hardware) (pin minPW maxPW : Nat)
    (minAngle maxAngle : Int) : Bool × Servo × Hardware :=
  if pin ≥ b.TOTAL_PINS || (b.PIN_MAP pin).timer_peripheral == none then
    (false, this, hw)
  -- SPI safety check
  else if hw.spiEnabled == true && (pin == b.SCK || pin == b.MOSI || pin == b.MISO) then
    (false, this, hw)
  -- I2C safety check
  else if hw.wireEnabled == true && (pin == b.SCL || pin == b.SDA) then
    (false, this, hw)
  -- Serial1 safety check
  else if hw.serial1Enabled == true && (pin == b.RX || pin == b.TX) then
    (false, this, hw)
  else
    (true, this.attachConfigure b hw pin minPW maxPW minAngle maxAngle)

/-- `Servo::writeMicroseconds`, with a `uint16_t` argument. -/
def Servo.writeMicroseconds (b : Board) (this : Servo) (hw : Hardware) (pulseWidth : Nat) :
    Servo × Hardware :=
  if !this.attached b then (this, hw)
  else
    let pulseWidth := toU16 (constrain pulseWidth this.minPW this.maxPW)
    let Compare_Value := US_TO_COMPARE hw.SystemCoreClock pulseWidth
    if (this.pinInfo b).timer_ch == TIM_Channel_1 then
      (this, TIM_SetCompare1 (this.pinInfo b).timer_peripheral Compare_Value hw)
    else if (this.pinInfo b).timer_ch == TIM_Channel_2 then
      (this, TIM_SetCompare2 (this.pinInfo b).timer_peripheral Compare_Value hw)
    else if (this.pinInfo b).timer_ch == TIM_Channel_3 then
      (this, TIM_SetCompare3 (this.pinInfo b).timer_peripheral Compare_Value hw)
    else if (this.pinInfo b).timer_ch == TIM_Channel_4 then
      (this, TIM_SetCompare4 (this.pinInfo b).timer_peripheral Compare_Value hw)
    else (this, hw)

/-- `Servo::readMicroseconds`, returning a `uint16_t`. -/
def Servo.readMicroseconds (b : Board) (this : Servo) (hw : Hardware) : Nat :=
  if !this.attached b then 0
  else
    let Capture_Value : Nat :=
      if (this.pinInfo b).timer_ch == TIM_Channel_1 then
        TIM_GetCapture1 (this.pinInfo b).timer_peripheral hw
      else if (this.pinInfo b).timer_ch == TIM_Channel_2 then
        TIM_GetCapture2 (this.pinInfo b).timer_peripheral hw
      else if (this.pinInfo b).timer_ch == TIM_Channel_3 then
        TIM_GetCapture3 (this.pinInfo b).timer_peripheral hw
      else if (this.pinInfo b).timer_ch == TIM_Channel_4 then
        TIM_GetCapture4 (this.pinInfo b).timer_peripheral hw
      else 0x0000
    toU16 (CAPTURE_TO_US hw.SystemCoreClock Capture_Value)

/-- `Servo::write`, with an `int` argument. -/
def Servo.write (b : Board) (this : Servo) (hw : Hardware) (degrees : Int) :
    Servo × Hardware :=
  let degrees := constrain degrees this.minAngle this.maxAngle
  this.writeMicroseconds b hw (this.ANGLE_TO_US degrees)

/-- `Servo::read`. -/
def Servo.read (b : Board) (this : Servo) (hw : Hardware) : Int :=
  let a := this.US_TO_ANGLE (this.readMicroseconds b hw)
  if a == this.minAngle || a == this.maxAngle then a else a + 1

/-! ## Auxiliary notions used to state the claims -/

/-- The hypothesis on the board that `NOT_ATTACHED` is a sentinel: no valid pin number
equals it. -/
def Board.sentinelOk (b : Board) : Prop :=
  ∀ pin : Nat, pin < b.TOTAL_PINS → (pin : Int) ≠ b.NOT_ATTACHED

/-- The compare register of the channel `ch` of a timer (`0` for a channel constant
that names none of the four channels, as `Capture_Value` in `readMicroseconds`). -/
def TimRegs.compare (r : TimRegs) (ch : Nat) : Nat :=
  if ch = TIM_Channel_1 then r.CCR1
  else if ch = TIM_Channel_2 then r.CCR2
  else if ch = TIM_Channel_3 then r.CCR3
  else if ch = TIM_Channel_4 then r.CCR4
  else 0

/-- The timer registers with the compare register of channel `ch` set to `v`. -/
def TimRegs.setCompare (r : TimRegs) (ch v : Nat) : TimRegs :=
  if ch = TIM_Channel_1 then { r with CCR1 := v }
  else if ch = TIM_Channel_2 then { r with CCR2 := v }
  else if ch = TIM_Channel_3 then { r with CCR3 := v }
  else if ch = TIM_Channel_4 then { r with CCR4 := v }
  else r

/-- The registers of a timer other than its four compare registers: the time base
(period, prescaler, clock division, counter mode), the preload and enable state and the
output-compare configuration of the channels. -/
def TimRegs.withoutCompare (r : TimRegs) : TimRegs :=
  { r with CCR1 := 0, CCR2 := 0, CCR3 := 0, CCR4 := 0 }

/-- The channel constant names one of the four channels of a timer. -/
def validChannel (ch : Nat) : Prop :=
  ch = TIM_Channel_1 ∨ ch = TIM_Channel_2 ∨ ch = TIM_Channel_3 ∨ ch = TIM_Channel_4

/-- The instance is attached and the pin map assigns the channel of timer `t` to its pin,
as is the case after a successful `attach` on a board whose timer pins all name one of the
four channels. -/
def Servo.attachedTo (b : Board) (this : Servo) (t : TIM_TypeDef) : Prop :=
  this.attached b = true ∧ (this.pinInfo b).timer_peripheral = some t ∧
    validChannel (this.pinInfo b).timer_ch

/-- The bounds of the instance are values of their C types: `uint16_t` pulse widths and
`int16_t` angles. -/
def Servo.wellTyped (this : Servo) : Prop :=
  this.minPW ≤ 65535 ∧ this.maxPW ≤ 65535 ∧
    -32768 ≤ this.minAngle ∧ this.minAngle ≤ 32767 ∧
    -32768 ≤ this.maxAngle ∧ this.maxAngle ≤ 32767

/-- The angle that `read()` returns right after `write(a)` on an attached instance, as a
function of the bounds of the instance and the core clock: the composition of
`constrain`, `ANGLE_TO_US`, the clamping and `US_TO_COMPARE` of `writeMicroseconds`,
`CAPTURE_TO_US` with the `uint16_t` return of `readMicroseconds`, `US_TO_ANGLE` and the
correction of `read()`. -/
def angleRoundTrip (s : Servo) (clk : Nat) (a : Int) : Int :=
  let us := s.ANGLE_TO_US (constrain a s.minAngle s.maxAngle)
  let cv := US_TO_COMPARE clk (toU16 (constrain us s.minPW s.maxPW))
  let r := toU16 (CAPTURE_TO_US clk cv)
  if s.US_TO_ANGLE r = s.minAngle ∨ s.US_TO_ANGLE r = s.maxAngle then s.US_TO_ANGLE r
  else s.US_TO_ANGLE r + 1

/-- The hardware steps of `Servo::attach` that follow the assignment of the fields
(source lines 100-155): clocks and pin mode, time base, channel configuration, auto-reload
preload and counter enable. `Servo.attachConfigure` applies them to the hardware left by
the implicit `detach`. -/
def Servo.attachHardware (b : Board) (this : Servo) (pin : Nat) (hw : Hardware) : Hardware :=
  TIM_Cmd (this.pinInfo b).timer_peripheral true
    (TIM_ARRPreloadConfig (this.pinInfo b).timer_peripheral
      (this.attachChannel b (attachTimeBase b pin (attachClocks b pin hw))))

/-- The registers of the pin's timer after the hardware steps of `attach`, as a function
of the registers before: time base with period `ov` and prescaler register `ps`, PWM1
configuration with zero pulse and preload of the channel `ch`, auto-reload preload and
counter enable. -/
def attachTimerRegs (ch ov ps : Nat) (r : TimRegs) : TimRegs :=
  let r1 : TimRegs :=
    { r with period := ov, prescaler := ps, clockDivision := 0, counterModeUp := true }
  let r2 : TimRegs :=
    if ch = TIM_Channel_1 then
      { r1 with OC1 := { pwm1Config r1.OC1 with preload := true }, CCR1 := 0 }
    else if ch = TIM_Channel_2 then
      { r1 with OC2 := { pwm1Config r1.OC2 with preload := true }, CCR2 := 0 }
    else if ch = TIM_Channel_3 then
      { r1 with OC3 := { pwm1Config r1.OC3 with preload := true }, CCR3 := 0 }
    else if ch = TIM_Channel_4 then
      { r1 with OC4 := { pwm1Config r1.OC4 with preload := true }, CCR4 := 0 }
    else r1
  { r2 with arrPreload := true, counterEnabled := true }

/-! ## A concrete board and reset state, used to evaluate the driver -/

/-- The pin table of the Spark Core: `D0`, `D1` on `TIM4`, `A0`, `A1`, `RX`, `TX` on
`TIM2`, `A4` to `A7` on `TIM3`, and no timer on the other pins. -/
def sparkCorePinMap (pin : Nat) : STM32_Pin_Info :=
  match pin with
  | 0 => ⟨some TIM_TypeDef.TIM4, TIM_Channel_2⟩
  | 1 => ⟨some TIM_TypeDef.TIM4, TIM_Channel_1⟩
  | 10 => ⟨some TIM_TypeDef.TIM2, TIM_Channel_1⟩
  | 11 => ⟨some TIM_TypeDef.TIM2, TIM_Channel_2⟩
  | 14 => ⟨some TIM_TypeDef.TIM3, TIM_Channel_1⟩
  | 15 => ⟨some TIM_TypeDef.TIM3, TIM_Channel_2⟩
  | 16 => ⟨some TIM_TypeDef.TIM3, TIM_Channel_3⟩
  | 17 => ⟨some TIM_TypeDef.TIM3, TIM_Channel_4⟩
  | 18 => ⟨some TIM_TypeDef.TIM2, TIM_Channel_4⟩
  | 19 => ⟨some TIM_TypeDef.TIM2, TIM_Channel_3⟩
  | _ => ⟨none, 0⟩

/-- The Spark Core board: 21 pins, `SCK = A3`, `MISO = A4`, `MOSI = A5`, `SDA = D0`,
`SCL = D1`, and `NOT_ATTACHED = -1`. -/
def sparkCore : Board where
  TOTAL_PINS := 21
  PIN_MAP := sparkCorePinMap
  SCK := 13
  MOSI := 15
  MISO := 14
  SCL := 1
  SDA := 0
  RX := 18
  TX := 19
  NOT_ATTACHED := -1

/-- Timer registers after reset. -/
def resetTimRegs : TimRegs :=
  { period := 65535, prescaler := 0, clockDivision := 0, counterModeUp := true,
    arrPreload := false, counterEnabled := false,
    CCR1 := 0, CCR2 := 0, CCR3 := 0, CCR4 := 0,
    OC1 := ⟨false, false, true, false⟩, OC2 := ⟨false, false, true, false⟩,
    OC3 := ⟨false, false, true, false⟩, OC4 := ⟨false, false, true, false⟩ }

/-- A hardware state with the given core clock, no bus enabled and all timers in reset. -/
def resetHardware (clock : Nat) : Hardware :=
  { SystemCoreClock := clock, spiEnabled := false, wireEnabled := false,
    serial1Enabled := false, afioClock := false, timClock := fun _ => false,
    pinModes := fun _ => PinMode.OTHER, tim := fun _ => resetTimRegs }

/-! ## Facts about the timer configuration arithmetic -/

theorem toU16_of_le (n : Nat) (h : n ≤ 65535) : toU16 (n : Int) = n := by
  unfold toU16
  omega

theorem TAU_CYC_eq (clk : Nat) (h : clk < 4294967296) : TAU_CYC clk = 20 * (clk / 1000) := by
  unfold TAU_CYC CYC_MSEC TAU_MSEC
  omega

theorem SERVO_PRESCALER_eq (clk : Nat) (h : clk < 4294967296) :
    SERVO_PRESCALER clk = 20 * (clk / 1000) / 65535 + 1 := by
  unfold SERVO_PRESCALER
  rw [TAU_CYC_eq clk h]
  have : MAX_OVERFLOW = 65535 := by decide
  rw [this]
  omega

theorem SERVO_PRESCALER_bounds (clk : Nat) (h : clk < 4294967296) :
    1 ≤ SERVO_PRESCALER clk ∧ SERVO_PRESCALER clk ≤ 1311 ∧
      TAU_CYC clk < 65535 * SERVO_PRESCALER clk := by
  rw [SERVO_PRESCALER_eq clk h, TAU_CYC_eq clk h]
  omega

theorem roundDiv_le (n d b : Nat) (hd : 0 < d) (h : 2 * n + d < 2 * d * (b + 1)) :
    roundDiv n d ≤ b := by
  unfold roundDiv
  have : (2 * n + d) / (2 * d) < b + 1 := by
    rw [Nat.div_lt_iff_lt_mul (by omega)]
    linarith
  omega

/-- The integer formula of `roundDiv` is the rounding of the exact quotient to the nearest
integer. -/
theorem roundDiv_eq_round (n d : Nat) (hd : 0 < d) :
    (roundDiv n d : ℤ) = round ((n : ℚ) / (d : ℚ)) := by
  rw [round_eq]
  have hd' : (d : ℚ) ≠ 0 := by exact_mod_cast hd.ne'
  have : (n : ℚ) / d + 1 / 2 = ((2 * n + d : ℕ) : ℚ) / ((2 * d : ℕ) : ℚ) := by
    push_cast
    field_simp
    ring
  rw [this]
  unfold roundDiv
  rw [← Int.natCast_floor_eq_floor (by positivity), Nat.floor_div_eq_div]

theorem SERVO_OVERFLOW_exact_le (clk : Nat) (h : clk < 4294967296) :
    SERVO_OVERFLOW_exact clk ≤ 65535 := by
  obtain ⟨h1, h2, h3⟩ := SERVO_PRESCALER_bounds clk h
  unfold SERVO_OVERFLOW_exact
  apply roundDiv_le _ _ _ h1
  nlinarith

theorem SERVO_OVERFLOW_eq_exact (clk : Nat) (h : clk < 4294967296) :
    SERVO_OVERFLOW clk = SERVO_OVERFLOW_exact clk := by
  unfold SERVO_OVERFLOW
  exact toU16_of_le _ (SERVO_OVERFLOW_exact_le clk h)

/-! ## Facts about the register primitives and `attach` -/

theorem onTimer_clock (hw : Hardware) (t : Option TIM_TypeDef) (f : TimRegs → TimRegs) :
    (hw.onTimer t f).SystemCoreClock = hw.SystemCoreClock := by
  cases t <;> rfl

theorem onTimer_tim_same (hw : Hardware) (t : TIM_TypeDef) (f : TimRegs → TimRegs) :
    (hw.onTimer (some t) f).tim t = f (hw.tim t) := by
  simp [Hardware.onTimer]

theorem onTimer_tim_other (hw : Hardware) (t u : TIM_TypeDef) (f : TimRegs → TimRegs)
    (h : u ≠ t) : (hw.onTimer (some t) f).tim u = hw.tim u := by
  simp [Hardware.onTimer, Function.update_noteq h]

theorem pinInfo_set_pin (b : Board) (pin minPW maxPW : Nat) (minAngle maxAngle : Int) :
    Servo.pinInfo b ⟨(pin : Int), minPW, maxPW, minAngle, maxAngle⟩ = b.PIN_MAP pin := by
  simp [Servo.pinInfo]

theorem attachConfigure_fields (b : Board) (s : Servo) (hw : Hardware) (pin minPW maxPW : Nat)
    (minAngle maxAngle : Int) :
    (s.attachConfigure b hw pin minPW maxPW minAngle maxAngle).1 =
      ⟨pin, minPW, maxPW, minAngle, maxAngle⟩ := by
  simp [Servo.attachConfigure]

theorem detach_clock (b : Board) (s : Servo) (hw : Hardware) :
    (s.detach b hw).2.2.SystemCoreClock = hw.SystemCoreClock := by
  unfold Servo.detach
  split
  · rfl
  · simp [TIM_Cmd, onTimer_clock]

theorem attachClocks_clock (b : Board) (pin : Nat) (hw : Hardware) :
    (attachClocks b pin hw).SystemCoreClock = hw.SystemCoreClock := by
  unfold attachClocks
  simp only []
  split_ifs <;> rfl

theorem attachChannel_timebase (b : Board) (s : Servo) (hw : Hardware) (t : TIM_TypeDef) :
    ((s.attachChannel b hw).tim t).period = (hw.tim t).period ∧
    ((s.attachChannel b hw).tim t).prescaler = (hw.tim t).prescaler := by
  unfold Servo.attachChannel
  cases hp : (s.pinInfo b).timer_peripheral with
  | none => split_ifs <;> simp [TIM_OC1PreloadConfig, TIM_OC2PreloadConfig,
      TIM_OC3PreloadConfig, TIM_OC4PreloadConfig, TIM_OC1Init, TIM_OC2Init, TIM_OC3Init,
      TIM_OC4Init, Hardware.onTimer]
  | some u =>
    by_cases h : t = u
    · subst h
      split_ifs <;> simp [TIM_OC1PreloadConfig, TIM_OC2PreloadConfig,
        TIM_OC3PreloadConfig, TIM_OC4PreloadConfig, TIM_OC1Init, TIM_OC2Init, TIM_OC3Init,
        TIM_OC4Init, onTimer_tim_same]
    · split_ifs <;> simp [TIM_OC1PreloadConfig, TIM_OC2PreloadConfig,
        TIM_OC3PreloadConfig, TIM_OC4PreloadConfig, TIM_OC1Init, TIM_OC2Init, TIM_OC3Init,
        TIM_OC4Init, onTimer_tim_other _ _ _ _ h]

/-- The time base and counter enable that `attachConfigure` leaves in the timer of the
pin. -/
theorem attachConfigure_timer (b : Board) (s : Servo) (hw : Hardware) (pin minPW maxPW : Nat)
    (minAngle maxAngle : Int) (t : TIM_TypeDef)
    (ht : (b.PIN_MAP pin).timer_peripheral = some t) :
    (((s.attachConfigure b hw pin minPW maxPW minAngle maxAngle).2).tim t).period
      = SERVO_OVERFLOW hw.SystemCoreClock ∧
    (((s.attachConfigure b hw pin minPW maxPW minAngle maxAngle).2).tim t).prescaler
      = toU16 ((SERVO_PRESCALER hw.SystemCoreClock : Int) - 1) ∧
    (((s.attachConfigure b hw pin minPW maxPW minAngle maxAngle).2).tim t).counterEnabled
      = true := by
  have hc : (if s.attached b then (s.detach b hw).2 else (s, hw)).2.SystemCoreClock
      = hw.SystemCoreClock := by
    split_ifs
    · exact detach_clock b s hw
    · rfl
  simp only [Servo.attachConfigure, pinInfo_set_pin, ht, TIM_Cmd, TIM_ARRPreloadConfig,
    onTimer_tim_same]
  refine ⟨?_, ?_, trivial⟩
  · rw [(attachChannel_timebase _ _ _ _).1]
    simp only [attachTimeBase, ht, TIM_TimeBaseInit, onTimer_tim_same, attachClocks_clock, hc]
  · rw [(attachChannel_timebase _ _ _ _).2]
    simp only [attachTimeBase, ht, TIM_TimeBaseInit, onTimer_tim_same, attachClocks_clock, hc]

/-- A successful `attach` is the configuration part applied to the instance. -/
theorem attach_of_true (b : Board) (s : Servo) (hw : Hardware) (pin minPW maxPW : Nat)
    (minAngle maxAngle : Int)
    (h : (s.attach b hw pin minPW maxPW minAngle maxAngle).1 = true) :
    s.attach b hw pin minPW maxPW minAngle maxAngle =
      (true, s.attachConfigure b hw pin minPW maxPW minAngle maxAngle) := by
  unfold Servo.attach at h ⊢
  split_ifs at h ⊢
  rfl

/-- A failed `attach` returns the instance and the hardware it was given. -/
theorem attach_of_false (b : Board) (s : Servo) (hw : Hardware) (pin minPW maxPW : Nat)
    (minAngle maxAngle : Int)
    (h : (s.attach b hw pin minPW maxPW minAngle maxAngle).1 = false) :
    s.attach b hw pin minPW maxPW minAngle maxAngle = (false, s, hw) := by
  unfold Servo.attach at h ⊢
  split_ifs at h ⊢ <;> simp_all

/-- A successful `attach` was given a pin below `TOTAL_PINS`. -/
theorem attach_true_pin_lt (b : Board) (s : Servo) (hw : Hardware) (pin minPW maxPW : Nat)
    (minAngle maxAngle : Int)
    (h : (s.attach b hw pin minPW maxPW minAngle maxAngle).1 = true) :
    pin < b.TOTAL_PINS := by
  by_contra hc
  have hge : b.TOTAL_PINS ≤ pin := by omega
  simp [Servo.attach, hge] at h

/-! ## Facts about the unit conversions and the compare registers -/

theorem toI32_of_range (x : Int) (h1 : -2147483648 ≤ x) (h2 : x < 2147483648) :
    toI32 x = x := by
  unfold toI32
  omega

theorem toI16_of_range (x : Int) (h1 : -32768 ≤ x) (h2 : x < 32768) : toI16 x = x := by
  unfold toI16
  omega

theorem toU16_of_range (x : Int) (h1 : 0 ≤ x) (h2 : x < 65536) : (toU16 x : Int) = x := by
  unfold toU16
  omega

theorem toU32_of_range (x : Int) (h1 : 0 ≤ x) (h2 : x < 4294967296) : (toU32 x : Int) = x := by
  unfold toU32
  omega

/-- When the offset `value - fromStart` and the output span are non-negative, the input
span is positive and nothing leaves the `int32_t` range, `map` is the floor of the exact
linear interpolation. -/
theorem map_of_nonneg (value fromStart fromEnd toStart toEnd : Int)
    (hv : 0 ≤ value - fromStart) (hd : 0 < fromEnd - fromStart) (ho : 0 ≤ toEnd - toStart)
    (hvr : value - fromStart < 2147483648) (hdr : fromEnd - fromStart < 2147483648)
    (hor : toEnd - toStart < 2147483648)
    (hprod : (value - fromStart) * (toEnd - toStart) < 2147483648)
    (hts : -2147483648 ≤ toStart)
    (hsum : (value - fromStart) * (toEnd - toStart) / (fromEnd - fromStart) + toStart
      < 2147483648) :
    map value fromStart fromEnd toStart toEnd =
      (value - fromStart) * (toEnd - toStart) / (fromEnd - fromStart) + toStart := by
  have hp0 : 0 ≤ (value - fromStart) * (toEnd - toStart) := mul_nonneg hv ho
  have hq0 : 0 ≤ (value - fromStart) * (toEnd - toStart) / (fromEnd - fromStart) :=
    Int.ediv_nonneg hp0 hd.le
  have hq1 : (value - fromStart) * (toEnd - toStart) / (fromEnd - fromStart) ≤
      (value - fromStart) * (toEnd - toStart) := Int.ediv_le_self _ hp0
  unfold map
  rw [toI32_of_range (value - fromStart) (by omega) hvr,
    toI32_of_range (toEnd - toStart) (by omega) hor,
    toI32_of_range (fromEnd - fromStart) (by omega) hdr,
    toI32_of_range ((value - fromStart) * (toEnd - toStart)) (by omega) hprod,
    Int.tdiv_eq_ediv hp0 hd.le,
    toI32_of_range ((value - fromStart) * (toEnd - toStart) / (fromEnd - fromStart))
      (by omega) (by omega),
    toI32_of_range _ (by omega) hsum]

/-- The conversion of a pulse width to compare ticks when the product fits `int32_t`. -/
theorem US_TO_COMPARE_eq (clk us : Nat) (hclk : clk < 4294967296)
    (h : us * SERVO_OVERFLOW clk < 2147483648) (hus : us ≤ 65535) :
    US_TO_COMPARE clk us = (us * SERVO_OVERFLOW clk / 20000) % 65536 := by
  have hov : SERVO_OVERFLOW clk ≤ 65535 := by
    rw [SERVO_OVERFLOW_eq_exact clk hclk]
    exact SERVO_OVERFLOW_exact_le clk hclk
  have hq : us * SERVO_OVERFLOW clk / 20000 ≤ us * SERVO_OVERFLOW clk := Nat.div_le_self _ _
  unfold US_TO_COMPARE
  have hT : ((TAU_USEC : Nat) : Int) = 20000 := by decide
  have hcast : ((us : Int) - 0) * ((SERVO_OVERFLOW clk : Int) - 0) / (20000 - 0) + 0 =
      ((us * SERVO_OVERFLOW clk / 20000 : Nat) : Int) := by
    push_cast
    simp
  have hprod : ((us : Int) - 0) * ((SERVO_OVERFLOW clk : Int) - 0) < 2147483648 := by
    simp only [sub_zero]
    exact_mod_cast h
  rw [hT, map_of_nonneg _ _ _ _ _ (by omega) (by omega) (by omega) (by omega) (by omega)
    (by omega) hprod (by omega) (by rw [hcast]; omega), hcast]
  unfold toU16
  omega


theorem hardware_eta (hw hw' : Hardware) (h1 : hw'.SystemCoreClock = hw.SystemCoreClock)
    (h2 : hw'.spiEnabled = hw.spiEnabled) (h3 : hw'.wireEnabled = hw.wireEnabled)
    (h4 : hw'.serial1Enabled = hw.serial1Enabled) (h5 : hw'.afioClock = hw.afioClock)
    (h6 : hw'.timClock = hw.timClock) (h7 : hw'.pinModes = hw.pinModes) :
    { hw' with tim := hw.tim } = hw := by
  cases hw
  cases hw'
  simp_all


theorem channel_consts : TIM_Channel_1 = 0 ∧ TIM_Channel_2 = 4 ∧ TIM_Channel_3 = 8 ∧
    TIM_Channel_4 = 12 := by decide

theorem compare_setCompare_same (r : TimRegs) (ch v : Nat) (h : validChannel ch) :
    (r.setCompare ch v).compare ch = v := by
  obtain ⟨c1, c2, c3, c4⟩ := channel_consts
  unfold validChannel at h
  rw [c1, c2, c3, c4] at h
  unfold TimRegs.setCompare TimRegs.compare
  rw [c1, c2, c3, c4]
  rcases h with h | h | h | h <;> subst h <;> simp

theorem compare_setCompare_other (r : TimRegs) (ch ch' v : Nat) (h : ch' ≠ ch) :
    (r.setCompare ch v).compare ch' = r.compare ch' := by
  obtain ⟨c1, c2, c3, c4⟩ := channel_consts
  unfold TimRegs.setCompare TimRegs.compare
  rw [c1, c2, c3, c4]
  split_ifs <;> first | rfl | omega

theorem withoutCompare_setCompare (r : TimRegs) (ch v : Nat) :
    (r.setCompare ch v).withoutCompare = r.withoutCompare := by
  unfold TimRegs.setCompare TimRegs.withoutCompare
  split_ifs <;> rfl

/-- On an attached instance `writeMicroseconds` sets the compare register of the channel
of the pin to the converted clamped pulse width. -/
theorem writeMicroseconds_eq (b : Board) (s : Servo) (hw : Hardware) (p : Nat)
    (t : TIM_TypeDef) (h : s.attachedTo b t) :
    s.writeMicroseconds b hw p =
      (s, hw.onTimer (some t) fun r => r.setCompare (s.pinInfo b).timer_ch
        (US_TO_COMPARE hw.SystemCoreClock (toU16 (constrain p s.minPW s.maxPW)))) := by
  obtain ⟨hatt, ht, hch⟩ := h
  obtain ⟨c1, c2, c3, c4⟩ := channel_consts
  unfold validChannel at hch
  unfold Servo.writeMicroseconds TimRegs.setCompare
  rw [c1, c2, c3, c4] at hch ⊢
  rcases hch with hc | hc | hc | hc <;>
    simp [hatt, ht, hc, TIM_SetCompare1, TIM_SetCompare2, TIM_SetCompare3, TIM_SetCompare4]

/-- On an attached instance `readMicroseconds` converts the compare register of the
channel of the pin. -/
theorem readMicroseconds_eq (b : Board) (s : Servo) (hw : Hardware)
    (t : TIM_TypeDef) (h : s.attachedTo b t) :
    s.readMicroseconds b hw =
      toU16 (CAPTURE_TO_US hw.SystemCoreClock ((hw.tim t).compare (s.pinInfo b).timer_ch)) := by
  obtain ⟨hatt, ht, hch⟩ := h
  obtain ⟨c1, c2, c3, c4⟩ := channel_consts
  unfold validChannel at hch
  unfold Servo.readMicroseconds TimRegs.compare
  rw [c1, c2, c3, c4] at hch ⊢
  rcases hch with hc | hc | hc | hc <;>
    simp [hatt, ht, hc, TIM_GetCapture1, TIM_GetCapture2, TIM_GetCapture3, TIM_GetCapture4,
      Hardware.readTimer]

/-- The effect of `writeMicroseconds` on an attached instance: the compare register of the
channel of the pin receives the converted clamped pulse width and nothing else changes. -/
theorem writeMicroseconds_effect (b : Board) (s : Servo) (hw : Hardware) (p : Nat)
    (t : TIM_TypeDef) (h : s.attachedTo b t) :
    (s.writeMicroseconds b hw p).1 = s ∧
    ((s.writeMicroseconds b hw p).2.tim t).compare (s.pinInfo b).timer_ch =
      US_TO_COMPARE hw.SystemCoreClock (toU16 (constrain p s.minPW s.maxPW)) ∧
    (∀ (t' : TIM_TypeDef) (ch' : Nat), t' ≠ t ∨ ch' ≠ (s.pinInfo b).timer_ch →
      ((s.writeMicroseconds b hw p).2.tim t').compare ch' = (hw.tim t').compare ch') ∧
    (∀ t' : TIM_TypeDef, ((s.writeMicroseconds b hw p).2.tim t').withoutCompare =
      (hw.tim t').withoutCompare) ∧
    { (s.writeMicroseconds b hw p).2 with tim := hw.tim } = hw ∧
    (s.writeMicroseconds b hw p).2.SystemCoreClock = hw.SystemCoreClock := by
  rw [writeMicroseconds_eq b s hw p t h]
  refine ⟨rfl, ?_, ?_, ?_, rfl, rfl⟩
  · rw [onTimer_tim_same]
    exact compare_setCompare_same _ _ _ h.2.2
  · intro t' ch' hne
    by_cases e : t' = t
    · subst e
      rw [onTimer_tim_same]
      rcases hne with hne | hne
      · exact absurd rfl hne
      · exact compare_setCompare_other _ _ _ _ hne
    · rw [onTimer_tim_other _ _ _ _ e]
  · intro t'
    by_cases e : t' = t
    · subst e
      rw [onTimer_tim_same]
      exact withoutCompare_setCompare _ _ _
    · rw [onTimer_tim_other _ _ _ _ e]


/-! ## Claims on the timer configuration -/

/-- C1 (evaluation at the failing input): at a core clock of 65 535 000 Hz the frame is
`TAU_CYC = 1310700 = 20 * 65535` cycles and the driver configures the prescaler `21`,
although the smaller positive prescaler `20` already satisfies
`TAU_CYC / 20 = 65535 <= 65535` and gives the overflow `65535 < 2^16`. -/
theorem SERVO_PRESCALER_not_smallest_at_65535000 :
    (65535000 : Nat) < 4294967296 ∧
    TAU_CYC 65535000 = 1310700 ∧
    SERVO_PRESCALER 65535000 = 21 ∧
    (0 < 20 ∧ 20 < SERVO_PRESCALER 65535000) ∧
    TAU_CYC 65535000 / 20 ≤ 65535 ∧
    roundDiv (TAU_CYC 65535000) 20 = 65535 := by
  decide

/-- C2: for every unsigned 32-bit core clock, a successful `attach` writes to the period
register of the pin's timer the exact quotient `TAU_CYC / SERVO_PRESCALER` rounded to the
nearest integer, this value is at most 65535 so that the `uint16_t` cast in
`SERVO_OVERFLOW` loses nothing, and the prescaler register receives
`SERVO_PRESCALER - 1`, which is at most 65535. -/
theorem attach_period_prescaler_fit (b : Board) (s : Servo) (hw : Hardware)
    (pin minPW maxPW : Nat) (minAngle maxAngle : Int) (t : TIM_TypeDef)
    (hclk : hw.SystemCoreClock < 4294967296)
    (ht : (b.PIN_MAP pin).timer_peripheral = some t)
    (hok : (s.attach b hw pin minPW maxPW minAngle maxAngle).1 = true) :
    (SERVO_OVERFLOW hw.SystemCoreClock : ℤ) =
        round ((TAU_CYC hw.SystemCoreClock : ℚ) / (SERVO_PRESCALER hw.SystemCoreClock : ℚ)) ∧
      SERVO_OVERFLOW_exact hw.SystemCoreClock ≤ 65535 ∧
      SERVO_OVERFLOW hw.SystemCoreClock = SERVO_OVERFLOW_exact hw.SystemCoreClock ∧
      ((s.attach b hw pin minPW maxPW minAngle maxAngle).2.2.tim t).period =
        SERVO_OVERFLOW hw.SystemCoreClock ∧
      1 ≤ SERVO_PRESCALER hw.SystemCoreClock ∧
      SERVO_PRESCALER hw.SystemCoreClock - 1 ≤ 65535 ∧
      ((s.attach b hw pin minPW maxPW minAngle maxAngle).2.2.tim t).prescaler =
        SERVO_PRESCALER hw.SystemCoreClock - 1 := by
  obtain ⟨h1, h2, _⟩ := SERVO_PRESCALER_bounds _ hclk
  obtain ⟨hp, hq, _⟩ := attachConfigure_timer b s hw pin minPW maxPW minAngle maxAngle t ht
  rw [attach_of_true b s hw pin minPW maxPW minAngle maxAngle hok]
  refine ⟨?_, SERVO_OVERFLOW_exact_le _ hclk, SERVO_OVERFLOW_eq_exact _ hclk, hp, h1,
    by omega, ?_⟩
  · rw [SERVO_OVERFLOW_eq_exact _ hclk]
    exact roundDiv_eq_round _ _ h1
  · rw [hq]
    unfold toU16
    omega

/-- Witness of C2: attaching a fresh servo to pin `A0` of the Spark Core at 72 MHz. -/
theorem attach_period_prescaler_fit_witness :
    (resetHardware 72000000).SystemCoreClock < 4294967296 ∧
    ((Servo.new sparkCore).attach sparkCore (resetHardware 72000000) 10 544 2400 0 180).1
      = true ∧
    (((Servo.new sparkCore).attach sparkCore (resetHardware 72000000) 10 544 2400 0
        180).2.2.tim TIM_TypeDef.TIM2).period = SERVO_OVERFLOW 72000000 ∧
    (((Servo.new sparkCore).attach sparkCore (resetHardware 72000000) 10 544 2400 0
        180).2.2.tim TIM_TypeDef.TIM2).prescaler = SERVO_PRESCALER 72000000 - 1 :=
  have h := attach_period_prescaler_fit sparkCore (Servo.new sparkCore)
    (resetHardware 72000000) 10 544 2400 0 180 TIM_TypeDef.TIM2 (by decide) rfl rfl
  ⟨by decide, rfl, h.2.2.2.1, h.2.2.2.2.2.2⟩

/-- C3: with a core clock of 72 MHz, `CYC_MSEC = 72000`, `TAU_CYC = 1440000`,
`SERVO_PRESCALER = 22` and `SERVO_OVERFLOW = 65455`, and a successful `attach` writes
exactly the prescaler register value 21 and the period 65455 to the pin's timer. -/
theorem attach_config_72MHz (b : Board) (s : Servo) (hw : Hardware)
    (pin minPW maxPW : Nat) (minAngle maxAngle : Int) (t : TIM_TypeDef)
    (hclk : hw.SystemCoreClock = 72000000)
    (ht : (b.PIN_MAP pin).timer_peripheral = some t)
    (hok : (s.attach b hw pin minPW maxPW minAngle maxAngle).1 = true) :
    CYC_MSEC hw.SystemCoreClock = 72000 ∧ TAU_CYC hw.SystemCoreClock = 1440000 ∧
      SERVO_PRESCALER hw.SystemCoreClock = 22 ∧ SERVO_OVERFLOW hw.SystemCoreClock = 65455 ∧
      ((s.attach b hw pin minPW maxPW minAngle maxAngle).2.2.tim t).prescaler = 21 ∧
      ((s.attach b hw pin minPW maxPW minAngle maxAngle).2.2.tim t).period = 65455 := by
  obtain ⟨hp, hq, _⟩ := attachConfigure_timer b s hw pin minPW maxPW minAngle maxAngle t ht
  rw [attach_of_true b s hw pin minPW maxPW minAngle maxAngle hok, hp, hq, hclk]
  decide

/-- Witness of C3: attaching a fresh servo to pin `D0` of the Spark Core at 72 MHz. -/
theorem attach_config_72MHz_witness :
    ((Servo.new sparkCore).attach sparkCore (resetHardware 72000000) 0 544 2400 0 180).1
      = true ∧
    (((Servo.new sparkCore).attach sparkCore (resetHardware 72000000) 0 544 2400 0
        180).2.2.tim TIM_TypeDef.TIM4).prescaler = 21 ∧
    (((Servo.new sparkCore).attach sparkCore (resetHardware 72000000) 0 544 2400 0
        180).2.2.tim TIM_TypeDef.TIM4).period = 65455 :=
  have h := attach_config_72MHz sparkCore (Servo.new sparkCore)
    (resetHardware 72000000) 0 544 2400 0 180 TIM_TypeDef.TIM4 rfl rfl rfl
  ⟨rfl, h.2.2.2.2.1, h.2.2.2.2.2⟩

/-! ## Claims on `attach` and `detach` -/

/-- C8: `attach` returns false exactly when the pin is not below `TOTAL_PINS`, or the pin
map gives it no timer peripheral, or SPI is enabled and the pin is `SCK`, `MOSI` or
`MISO`, or I2C is enabled and the pin is `SCL` or `SDA`, or Serial1 is enabled and the pin
is `RX` or `TX`; it returns true otherwise; and the result is the same for any other
pulse-width and angle arguments and any other instance, attached or not. -/
theorem attach_false_iff (b : Board) (s : Servo) (hw : Hardware) (pin minPW maxPW : Nat)
    (minAngle maxAngle : Int) :
    ((s.attach b hw pin minPW maxPW minAngle maxAngle).1 = false ↔
      (¬ pin < b.TOTAL_PINS ∨ (b.PIN_MAP pin).timer_peripheral = none ∨
        (hw.spiEnabled = true ∧ (pin = b.SCK ∨ pin = b.MOSI ∨ pin = b.MISO)) ∨
        (hw.wireEnabled = true ∧ (pin = b.SCL ∨ pin = b.SDA)) ∨
        (hw.serial1Enabled = true ∧ (pin = b.RX ∨ pin = b.TX)))) ∧
    ((s.attach b hw pin minPW maxPW minAngle maxAngle).1 = true ↔
      ¬ (¬ pin < b.TOTAL_PINS ∨ (b.PIN_MAP pin).timer_peripheral = none ∨
        (hw.spiEnabled = true ∧ (pin = b.SCK ∨ pin = b.MOSI ∨ pin = b.MISO)) ∨
        (hw.wireEnabled = true ∧ (pin = b.SCL ∨ pin = b.SDA)) ∨
        (hw.serial1Enabled = true ∧ (pin = b.RX ∨ pin = b.TX)))) ∧
    (∀ (s' : Servo) (minPW' maxPW' : Nat) (minAngle' maxAngle' : Int),
      (s'.attach b hw pin minPW' maxPW' minAngle' maxAngle').1 =
        (s.attach b hw pin minPW maxPW minAngle maxAngle).1) := by
  have key : ∀ (s : Servo) (minPW maxPW : Nat) (minAngle maxAngle : Int),
      ((s.attach b hw pin minPW maxPW minAngle maxAngle).1 = false ↔
      (¬ pin < b.TOTAL_PINS ∨ (b.PIN_MAP pin).timer_peripheral = none ∨
        (hw.spiEnabled = true ∧ (pin = b.SCK ∨ pin = b.MOSI ∨ pin = b.MISO)) ∨
        (hw.wireEnabled = true ∧ (pin = b.SCL ∨ pin = b.SDA)) ∨
        (hw.serial1Enabled = true ∧ (pin = b.RX ∨ pin = b.TX)))) := by
    intro s minPW maxPW minAngle maxAngle
    unfold Servo.attach
    split_ifs with h1 h2 h3 h4
    · simp only [true_iff]
      simp only [Bool.or_eq_true, decide_eq_true_eq, beq_iff_eq, ge_iff_le] at h1
      rcases h1 with h1 | h1
      · exact Or.inl (by omega)
      · exact Or.inr (Or.inl h1)
    · simp only [true_iff]
      simp only [Bool.or_eq_true, Bool.and_eq_true, beq_iff_eq] at h2
      exact Or.inr (Or.inr (Or.inl ⟨h2.1, or_assoc.1 h2.2⟩))
    · simp only [true_iff]
      simp only [Bool.or_eq_true, Bool.and_eq_true, beq_iff_eq] at h3
      exact Or.inr (Or.inr (Or.inr (Or.inl h3)))
    · simp only [true_iff]
      simp only [Bool.or_eq_true, Bool.and_eq_true, beq_iff_eq] at h4
      exact Or.inr (Or.inr (Or.inr (Or.inr h4)))
    · simp only [Bool.or_eq_true, Bool.and_eq_true, beq_iff_eq, decide_eq_true_eq,
        ge_iff_le] at h1 h2 h3 h4
      simp only [Bool.true_eq_false, false_iff]
      rintro (h | h | h | h | h)
      · exact h1 (Or.inl (by omega))
      · exact h1 (Or.inr h)
      · exact h2 ⟨h.1, or_assoc.2 h.2⟩
      · exact h3 h
      · exact h4 h
  refine ⟨key s minPW maxPW minAngle maxAngle, ?_, ?_⟩
  · rw [← key s minPW maxPW minAngle maxAngle]
    simp
  · intro s' minPW' maxPW' minAngle' maxAngle'
    have k1 := key s minPW maxPW minAngle maxAngle
    have k2 := key s' minPW' maxPW' minAngle' maxAngle'
    cases h : (s.attach b hw pin minPW maxPW minAngle maxAngle).1
    · exact k2.2 (k1.1 h)
    · cases h' : (s'.attach b hw pin minPW' maxPW' minAngle' maxAngle').1
      · rw [k1.2 (k2.1 h')] at h
        exact absurd h (by simp)
      · rfl

/-- C9: when `attach` returns false, or the pin is outside the valid range or has no timer
mapping, the call returns false and changes nothing: the instance (pin and bounds) and the
hardware state are those before the call, so a detached instance is left detached. -/
theorem attach_failure_changes_nothing (b : Board) (s : Servo) (hw : Hardware)
    (pin minPW maxPW : Nat) (minAngle maxAngle : Int)
    (h : (s.attach b hw pin minPW maxPW minAngle maxAngle).1 = false ∨
      b.TOTAL_PINS ≤ pin ∨ (b.PIN_MAP pin).timer_peripheral = none) :
    s.attach b hw pin minPW maxPW minAngle maxAngle = (false, s, hw) ∧
      (s.attach b hw pin minPW maxPW minAngle maxAngle).2.1.attached b = s.attached b := by
  have hf : (s.attach b hw pin minPW maxPW minAngle maxAngle).1 = false := by
    rcases h with h | h | h
    · exact h
    · simp [Servo.attach, h]
    · simp [Servo.attach, h]
  rw [attach_of_false b s hw pin minPW maxPW minAngle maxAngle hf]
  exact ⟨rfl, rfl⟩

/-- Witness of C9: pin 25 is outside the 21 pins of the Spark Core. -/
theorem attach_failure_changes_nothing_witness :
    sparkCore.TOTAL_PINS ≤ 25 ∧
    (Servo.new sparkCore).attach sparkCore (resetHardware 72000000) 25 544 2400 0 180 =
      (false, Servo.new sparkCore, resetHardware 72000000) ∧
    ((Servo.new sparkCore).attach sparkCore (resetHardware 72000000) 25 544 2400 0
      180).2.1.attached sparkCore = false :=
  have h := attach_failure_changes_nothing sparkCore (Servo.new sparkCore)
    (resetHardware 72000000) 25 544 2400 0 180 (Or.inr (Or.inl (by decide)))
  ⟨by decide, h.1, h.2⟩

theorem detach_detached (b : Board) (s : Servo) (hw : Hardware) (h : s.attached b = false) :
    s.detach b hw = (false, s, hw) := by
  simp [Servo.detach, h]

theorem new_not_attached (b : Board) : (Servo.new b).attached b = false := by
  simp [Servo.new, Servo.resetFields, Servo.attached]

/-- C10: for every pin that passes the checks of `attach` and every bounds, after `attach`
returns true the instance reports `attached()` and holds exactly the given pin and bounds;
the first `detach()` returns true, disables the counter of the pin's timer and leaves the
fields of a freshly constructed instance; every further `detach()` returns false and
changes neither the instance nor the hardware. -/
theorem attach_detach_lifecycle (b : Board) (s : Servo) (hw : Hardware)
    (pin minPW maxPW : Nat) (minAngle maxAngle : Int) (t : TIM_TypeDef)
    (hb : b.sentinelOk)
    (ht : (b.PIN_MAP pin).timer_peripheral = some t)
    (hok : (s.attach b hw pin minPW maxPW minAngle maxAngle).1 = true) :
    let a := s.attach b hw pin minPW maxPW minAngle maxAngle
    let d := a.2.1.detach b a.2.2
    a.2.1.attached b = true ∧
    a.2.1 = ⟨pin, minPW, maxPW, minAngle, maxAngle⟩ ∧
    d.1 = true ∧
    (d.2.2.tim t).counterEnabled = false ∧
    d.2.1 = Servo.new b ∧
    d.2.1.attached b = false ∧
    (∀ hw' : Hardware, d.2.1.detach b hw' = (false, d.2.1, hw')) ∧
    (∀ n : Nat, (fun st : Servo × Hardware => (st.1.detach b st.2).2)^[n] d.2 = d.2) := by
  intro a d
  have hlt : pin < b.TOTAL_PINS :=
    attach_true_pin_lt b s hw pin minPW maxPW minAngle maxAngle hok
  have ha : a = (true, s.attachConfigure b hw pin minPW maxPW minAngle maxAngle) :=
    attach_of_true b s hw pin minPW maxPW minAngle maxAngle hok
  have hs : a.2.1 = ⟨pin, minPW, maxPW, minAngle, maxAngle⟩ := by
    rw [ha]
    exact attachConfigure_fields b s hw pin minPW maxPW minAngle maxAngle
  have hatt : a.2.1.attached b = true := by
    rw [hs]
    simpa [Servo.attached] using hb pin hlt
  have hd : d = (true, Servo.new b,
      TIM_Cmd (some t) false a.2.2) := by
    show a.2.1.detach b a.2.2 = _
    unfold Servo.detach
    rw [hatt, hs]
    simp [pinInfo_set_pin, ht, Servo.resetFields, Servo.new]
  have hnew : ∀ hw' : Hardware, (Servo.new b).detach b hw' = (false, Servo.new b, hw') :=
    fun hw' => detach_detached b _ hw' (new_not_attached b)
  refine ⟨hatt, hs, ?_, ?_, ?_, ?_, ?_, ?_⟩
  · rw [hd]
  · rw [hd]
    simp [TIM_Cmd, onTimer_tim_same]
  · rw [hd]
  · rw [hd]
    exact new_not_attached b
  · rw [hd]
    exact hnew
  · intro n
    rw [hd]
    induction n with
    | zero => rfl
    | succ k ih =>
      rw [Function.iterate_succ_apply']
      rw [ih]
      simp [hnew]

/-- Witness of C10: attaching a fresh servo to pin `A7` of the Spark Core at 72 MHz. -/
theorem attach_detach_lifecycle_witness :
    ((Servo.new sparkCore).attach sparkCore (resetHardware 72000000) 17 600 2300 (-90)
      90).1 = true ∧
    ((Servo.new sparkCore).attach sparkCore (resetHardware 72000000) 17 600 2300 (-90)
      90).2.1 = ⟨17, 600, 2300, -90, 90⟩ ∧
    (((Servo.new sparkCore).attach sparkCore (resetHardware 72000000) 17 600 2300 (-90)
      90).2.1.detach sparkCore
        ((Servo.new sparkCore).attach sparkCore (resetHardware 72000000) 17 600 2300 (-90)
          90).2.2).1 = true :=
  have hb : sparkCore.sentinelOk := by
    intro pin _
    show (pin : Int) ≠ -1
    omega
  have h := attach_detach_lifecycle sparkCore (Servo.new sparkCore)
    (resetHardware 72000000) 17 600 2300 (-90) 90 TIM_TypeDef.TIM3 hb rfl rfl
  ⟨rfl, h.2.1, h.2.2.1⟩

/-! ## Claims on `writeMicroseconds` -/

theorem constrain_nat (p lo hi : Nat) :
    constrain p lo hi = ((if p < lo then lo else if p > hi then hi else p : Nat) : Int) := by
  unfold constrain
  split_ifs <;> first | rfl | omega

/-- The compare value computed from a clamped pulse width: the truncating quotient
`(c * overflow) / 20000` reduced modulo `2^16`, and the quotient itself when
`c <= 20000`. -/
theorem US_TO_COMPARE_constrain (s : Servo) (clk p : Nat) (hty : s.wellTyped)
    (hp : p ≤ 65535) (hclk : clk < 4294967296)
    (hno : (constrain p s.minPW s.maxPW).toNat * SERVO_OVERFLOW clk < 2147483648) :
    US_TO_COMPARE clk (toU16 (constrain p s.minPW s.maxPW)) =
      ((constrain p s.minPW s.maxPW).toNat * SERVO_OVERFLOW clk / 20000) % 65536 ∧
    ((constrain p s.minPW s.maxPW).toNat ≤ 20000 →
      US_TO_COMPARE clk (toU16 (constrain p s.minPW s.maxPW)) =
        (constrain p s.minPW s.maxPW).toNat * SERVO_OVERFLOW clk / 20000) := by
  obtain ⟨t1, t2, _⟩ := hty
  have hc : constrain p s.minPW s.maxPW =
      (((constrain p s.minPW s.maxPW).toNat : Nat) : Int) := by
    rw [constrain_nat, Int.toNat_ofNat]
  have hc' : (constrain p s.minPW s.maxPW).toNat ≤ 65535 := by
    rw [constrain_nat]
    simp only [Int.toNat_ofNat]
    split_ifs <;> omega
  have hov : SERVO_OVERFLOW clk ≤ 65535 := by
    rw [SERVO_OVERFLOW_eq_exact _ hclk]
    exact SERVO_OVERFLOW_exact_le _ hclk
  have hval : US_TO_COMPARE clk (toU16 (constrain p s.minPW s.maxPW)) =
      ((constrain p s.minPW s.maxPW).toNat * SERVO_OVERFLOW clk / 20000) % 65536 := by
    generalize (constrain p s.minPW s.maxPW).toNat = c at hc hc' hno ⊢
    rw [hc, toU16_of_le c hc']
    exact US_TO_COMPARE_eq _ c hclk hno hc'
  refine ⟨hval, ?_⟩
  intro hle
  rw [hval]
  apply Nat.mod_eq_of_lt
  have : (constrain p s.minPW s.maxPW).toNat * SERVO_OVERFLOW clk ≤
      20000 * 65535 := Nat.mul_le_mul hle hov
  omega

/-- C4 (counterexample): a servo attached at 72 MHz with the pulse-width bounds 544 and
30000 microseconds is asked for 30000 microseconds; the clamped width is 30000 and
`(30000 * 65455) / 20000 = 98182`, but the compare register of the channel receives
32646, the low 16 bits of that quotient. -/
theorem writeMicroseconds_compare_truncated :
    ((Servo.new sparkCore).attach sparkCore (resetHardware 72000000) 10 544 30000 0 180).1
      = true ∧
    (⟨10, 544, 30000, 0, 180⟩ : Servo).attachedTo sparkCore TIM_TypeDef.TIM2 ∧
    ((Servo.new sparkCore).attach sparkCore (resetHardware 72000000) 10 544 30000 0 180).2.1
      = ⟨10, 544, 30000, 0, 180⟩ ∧
    constrain 30000 544 30000 = 30000 ∧
    SERVO_OVERFLOW 72000000 = 65455 ∧
    (30000 * 65455) / 20000 = 98182 ∧
    (((⟨10, 544, 30000, 0, 180⟩ : Servo).writeMicroseconds sparkCore
      ((Servo.new sparkCore).attach sparkCore (resetHardware 72000000) 10 544 30000 0
        180).2.2 30000).2.tim TIM_TypeDef.TIM2).compare TIM_Channel_1 = 32646 ∧
    (((⟨10, 544, 30000, 0, 180⟩ : Servo).writeMicroseconds sparkCore
      ((Servo.new sparkCore).attach sparkCore (resetHardware 72000000) 10 544 30000 0
        180).2.2 30000).2.tim TIM_TypeDef.TIM2).compare TIM_Channel_1 ≠
      (30000 * 65455) / 20000 := by
  refine ⟨rfl, ⟨rfl, rfl, Or.inl rfl⟩, rfl, rfl, by decide, by decide, rfl, ?_⟩
  decide


/-- C4 (amended): for every attached instance with `uint16_t` bounds, every 16-bit pulse
width `p` and `c` the clamped width, as long as `c * SERVO_OVERFLOW` fits `int32_t`,
`writeMicroseconds(p)` sets the compare register of the channel that the pin map assigns
to the pin to `(c * overflow) / 20000` reduced modulo `2^16`, which is
`(c * overflow) / 20000` itself when `c <= 20000`; the compare registers of every other
channel and timer, the other registers of every timer, the rest of the hardware and the
fields of the instance are unchanged. -/
theorem writeMicroseconds_sets_compare (b : Board) (s : Servo) (hw : Hardware) (p : Nat)
    (t : TIM_TypeDef) (h : s.attachedTo b t) (hty : s.wellTyped) (hp : p ≤ 65535)
    (hclk : hw.SystemCoreClock < 4294967296)
    (hno : (constrain p s.minPW s.maxPW).toNat * SERVO_OVERFLOW hw.SystemCoreClock
      < 2147483648) :
    ((s.writeMicroseconds b hw p).2.tim t).compare (s.pinInfo b).timer_ch =
      ((constrain p s.minPW s.maxPW).toNat * SERVO_OVERFLOW hw.SystemCoreClock / 20000)
        % 65536 ∧
    ((constrain p s.minPW s.maxPW).toNat ≤ 20000 →
      ((s.writeMicroseconds b hw p).2.tim t).compare (s.pinInfo b).timer_ch =
        (constrain p s.minPW s.maxPW).toNat * SERVO_OVERFLOW hw.SystemCoreClock / 20000) ∧
    (∀ (t' : TIM_TypeDef) (ch' : Nat), t' ≠ t ∨ ch' ≠ (s.pinInfo b).timer_ch →
      ((s.writeMicroseconds b hw p).2.tim t').compare ch' = (hw.tim t').compare ch') ∧
    (∀ t' : TIM_TypeDef, ((s.writeMicroseconds b hw p).2.tim t').withoutCompare =
      (hw.tim t').withoutCompare) ∧
    { (s.writeMicroseconds b hw p).2 with tim := hw.tim } = hw ∧
    (s.writeMicroseconds b hw p).1 = s := by
  obtain ⟨e1, e2, e3, e4, e5, _⟩ := writeMicroseconds_effect b s hw p t h
  obtain ⟨v1, v2⟩ := US_TO_COMPARE_constrain s hw.SystemCoreClock p hty hp hclk hno
  refine ⟨?_, fun hle => ?_, e3, e4, e5, e1⟩
  · rw [e2, v1]
  · rw [e2, v2 hle]

/-- Witness of C4: writing 1500 microseconds to a servo on pin `A0` at 72 MHz. -/
theorem writeMicroseconds_sets_compare_witness :
    (⟨10, 544, 2400, 0, 180⟩ : Servo).attachedTo sparkCore TIM_TypeDef.TIM2 ∧
    (((⟨10, 544, 2400, 0, 180⟩ : Servo).writeMicroseconds sparkCore (resetHardware 72000000)
      1500).2.tim TIM_TypeDef.TIM2).compare
        ((⟨10, 544, 2400, 0, 180⟩ : Servo).pinInfo sparkCore).timer_ch =
      (constrain 1500 544 2400).toNat * SERVO_OVERFLOW 72000000 / 20000 :=
  have hatt : (⟨10, 544, 2400, 0, 180⟩ : Servo).attachedTo sparkCore TIM_TypeDef.TIM2 :=
    ⟨rfl, rfl, Or.inl rfl⟩
  have h := writeMicroseconds_sets_compare sparkCore ⟨10, 544, 2400, 0, 180⟩
    (resetHardware 72000000) 1500 TIM_TypeDef.TIM2 hatt
    (by unfold Servo.wellTyped; decide) (by decide) (by decide) (by decide)
  ⟨hatt, h.2.1 (by decide)⟩


/-- The conversion of compare ticks to a pulse width for a 16-bit register value. -/
theorem CAPTURE_TO_US_eq (clk c : Nat) (hclk : clk < 4294967296) (hc : c ≤ 65535)
    (hov : 0 < SERVO_OVERFLOW clk) :
    CAPTURE_TO_US clk c = c * 20000 / SERVO_OVERFLOW clk := by
  have hov2 : SERVO_OVERFLOW clk ≤ 65535 := by
    rw [SERVO_OVERFLOW_eq_exact clk hclk]
    exact SERVO_OVERFLOW_exact_le clk hclk
  have hq : c * 20000 / SERVO_OVERFLOW clk ≤ c * 20000 := Nat.div_le_self _ _
  unfold CAPTURE_TO_US
  have hT : ((TAU_USEC : Nat) : Int) = 20000 := by decide
  have hcast : ((c : Int) - 0) * (20000 - 0) / ((SERVO_OVERFLOW clk : Int) - 0) + 0 =
      ((c * 20000 / SERVO_OVERFLOW clk : Nat) : Int) := by
    push_cast
    simp
  rw [hT, map_of_nonneg _ _ _ _ _ (by omega) (by omega) (by omega) (by omega) (by omega)
    (by omega) (by omega) (by omega)
    (by
      rw [hcast]
      generalize c * 20000 / SERVO_OVERFLOW clk = q at hq
      omega), hcast]
  unfold toU32
  generalize c * 20000 / SERVO_OVERFLOW clk = q at hq
  omega

/-- Converting a pulse width to ticks and back loses at most one microsecond when the
period is at least as fine as the microsecond grid. -/
theorem ticks_round_trip (V D p : Nat) (hD : 0 < D) (hDV : D ≤ V) :
    p * V / D * D / V ≤ p ∧ p ≤ p * V / D * D / V + 1 := by
  have hV : 0 < V := by omega
  have h1 : p * V / D * D ≤ p * V := Nat.div_mul_le_self _ _
  have h2 : p * V < p * V / D * D + D := Nat.lt_div_mul_add hD
  generalize p * V / D = c at h1 h2 ⊢
  constructor
  · apply Nat.div_le_of_le_mul
    rw [Nat.mul_comm V p]
    exact h1
  · cases p with
    | zero => exact Nat.zero_le _
    | succ q =>
      have h3 : (q + 1) * V = q * V + V := by ring
      have h4 : q ≤ c * D / V := by
        rw [Nat.le_div_iff_mul_le hV]
        omega
      exact Nat.succ_le_succ h4

/-- Writing a pulse width and reading it back on an attached instance: the value read is
the clamped width converted to ticks and back, which is the clamped width or one less,
provided the clamped width is at most the 20000 microsecond frame and the period is at
least 20000 ticks. -/
theorem writeMicroseconds_readMicroseconds (b : Board) (s : Servo) (hw : Hardware) (p : Nat)
    (t : TIM_TypeDef) (h : s.attachedTo b t) (hty : s.wellTyped) (hp : p ≤ 65535)
    (hclk : hw.SystemCoreClock < 4294967296)
    (hov : 20000 ≤ SERVO_OVERFLOW hw.SystemCoreClock)
    (hc : (constrain p s.minPW s.maxPW).toNat ≤ 20000) :
    (s.writeMicroseconds b hw p).1.readMicroseconds b (s.writeMicroseconds b hw p).2 =
      (constrain p s.minPW s.maxPW).toNat * SERVO_OVERFLOW hw.SystemCoreClock / 20000
        * 20000 / SERVO_OVERFLOW hw.SystemCoreClock ∧
    (s.writeMicroseconds b hw p).1.readMicroseconds b (s.writeMicroseconds b hw p).2 ≤
      (constrain p s.minPW s.maxPW).toNat ∧
    (constrain p s.minPW s.maxPW).toNat ≤
      (s.writeMicroseconds b hw p).1.readMicroseconds b (s.writeMicroseconds b hw p).2 + 1 := by
  have hov2 : SERVO_OVERFLOW hw.SystemCoreClock ≤ 65535 := by
    rw [SERVO_OVERFLOW_eq_exact _ hclk]
    exact SERVO_OVERFLOW_exact_le _ hclk
  have hprod : (constrain p s.minPW s.maxPW).toNat * SERVO_OVERFLOW hw.SystemCoreClock ≤
      20000 * 65535 := Nat.mul_le_mul hc hov2
  obtain ⟨w1, w0, _, _, _, w6⟩ := writeMicroseconds_effect b s hw p t h
  have w2 := w0.trans ((US_TO_COMPARE_constrain s hw.SystemCoreClock p hty hp hclk
    (by omega)).2 hc)
  obtain ⟨r1, r2⟩ := ticks_round_trip (SERVO_OVERFLOW hw.SystemCoreClock) 20000
    (constrain p s.minPW s.maxPW).toNat (by omega) hov
  have hread : (s.writeMicroseconds b hw p).1.readMicroseconds b
      (s.writeMicroseconds b hw p).2 =
      (constrain p s.minPW s.maxPW).toNat * SERVO_OVERFLOW hw.SystemCoreClock / 20000
        * 20000 / SERVO_OVERFLOW hw.SystemCoreClock := by
    rw [w1, readMicroseconds_eq b s _ t h, w2, w6]
    have hcv : (constrain p s.minPW s.maxPW).toNat * SERVO_OVERFLOW hw.SystemCoreClock
        / 20000 ≤ 65535 := by omega
    rw [CAPTURE_TO_US_eq _ _ hclk hcv (by omega)]
    exact toU16_of_le _ (by omega)
  rw [hread]
  exact ⟨rfl, r1, r2⟩


/-- C5 (counterexample): at 72 MHz (overflow 65455) a servo attached with the default
bounds writes 1000 microseconds, which lies within the bounds, and reads back 999: the
error is one microsecond, more than `20000 / 65455` of a microsecond. With the upper
bound 30000 the width 30000 reads back as 9975. -/
theorem writeMicroseconds_readMicroseconds_error_exceeds_tick :
    (⟨10, 544, 2400, 0, 180⟩ : Servo).attachedTo sparkCore TIM_TypeDef.TIM2 ∧
    SERVO_OVERFLOW (resetHardware 72000000).SystemCoreClock = 65455 ∧
    (544 ≤ 1000 ∧ 1000 ≤ 2400) ∧
    ((⟨10, 544, 2400, 0, 180⟩ : Servo).writeMicroseconds sparkCore (resetHardware 72000000)
      1000).1.readMicroseconds sparkCore
      ((⟨10, 544, 2400, 0, 180⟩ : Servo).writeMicroseconds sparkCore (resetHardware 72000000)
        1000).2 = 999 ∧
    ¬ ((1000 - 999) * 65455 ≤ 20000) ∧
    ((⟨10, 544, 30000, 0, 180⟩ : Servo).writeMicroseconds sparkCore (resetHardware 72000000)
      30000).1.readMicroseconds sparkCore
      ((⟨10, 544, 30000, 0, 180⟩ : Servo).writeMicroseconds sparkCore
        (resetHardware 72000000) 30000).2 = 9975 := by
  refine ⟨⟨rfl, rfl, Or.inl rfl⟩, by decide, by decide, by decide, by decide, by decide⟩

/-- C5 (amended): for every attached instance at 72 MHz (overflow 65455) and every pulse
width `p` with `minPW <= p <= maxPW` and `p <= 20000`, `writeMicroseconds(p)` followed by
`readMicroseconds()` returns `p` or `p - 1`: the error is at most one microsecond. -/
theorem writeMicroseconds_readMicroseconds_72MHz (b : Board) (s : Servo) (hw : Hardware)
    (p : Nat) (t : TIM_TypeDef) (h : s.attachedTo b t) (hty : s.wellTyped)
    (hclk : hw.SystemCoreClock = 72000000) (hlo : s.minPW ≤ p) (hhi : p ≤ s.maxPW)
    (hp : p ≤ 20000) :
    SERVO_OVERFLOW hw.SystemCoreClock = 65455 ∧
    ((s.writeMicroseconds b hw p).1.readMicroseconds b (s.writeMicroseconds b hw p).2 = p ∨
      (s.writeMicroseconds b hw p).1.readMicroseconds b (s.writeMicroseconds b hw p).2 + 1
        = p) := by
  have hov : SERVO_OVERFLOW hw.SystemCoreClock = 65455 := by
    rw [hclk]
    decide
  have hc : (constrain p s.minPW s.maxPW).toNat = p := by
    rw [constrain_nat, Int.toNat_ofNat]
    split_ifs <;> omega
  obtain ⟨_, r1, r2⟩ := writeMicroseconds_readMicroseconds b s hw p t h hty (by omega)
    (by omega) (by omega) (by omega)
  rw [hc] at r1 r2
  exact ⟨hov, by omega⟩

/-- Witness of C5: writing 1500 microseconds to a servo on pin `A0` at 72 MHz. -/
theorem writeMicroseconds_readMicroseconds_72MHz_witness :
    (⟨10, 544, 2400, 0, 180⟩ : Servo).attachedTo sparkCore TIM_TypeDef.TIM2 ∧
    (544 ≤ 1500 ∧ 1500 ≤ 2400 ∧ 1500 ≤ 20000) ∧
    (((⟨10, 544, 2400, 0, 180⟩ : Servo).writeMicroseconds sparkCore (resetHardware 72000000)
      1500).1.readMicroseconds sparkCore
      ((⟨10, 544, 2400, 0, 180⟩ : Servo).writeMicroseconds sparkCore (resetHardware 72000000)
        1500).2 = 1500 ∨
     ((⟨10, 544, 2400, 0, 180⟩ : Servo).writeMicroseconds sparkCore (resetHardware 72000000)
      1500).1.readMicroseconds sparkCore
      ((⟨10, 544, 2400, 0, 180⟩ : Servo).writeMicroseconds sparkCore (resetHardware 72000000)
        1500).2 + 1 = 1500) :=
  have hatt : (⟨10, 544, 2400, 0, 180⟩ : Servo).attachedTo sparkCore TIM_TypeDef.TIM2 :=
    ⟨rfl, rfl, Or.inl rfl⟩
  ⟨hatt, by decide, (writeMicroseconds_readMicroseconds_72MHz sparkCore ⟨10, 544, 2400, 0, 180⟩
    (resetHardware 72000000) 1500 TIM_TypeDef.TIM2 hatt (by unfold Servo.wellTyped; decide)
    rfl (by decide) (by decide) (by decide)).2⟩

/-! ## Claims on clamping -/

/-- C7: for every instance with `minAngle <= maxAngle` and `minPW <= maxPW`: `write` of
every angle below `minAngle` leaves the same state as `write(minAngle)`; `write` of every
angle above `maxAngle` leaves the same state as `write(maxAngle)`; `writeMicroseconds` of
every width above `maxPW` leaves the same state as `writeMicroseconds(maxPW)`; and
`writeMicroseconds` of every width below `minPW` leaves the same state as
`writeMicroseconds(minPW)`. Each of the four clamps holds on its own. -/
theorem write_clamps (b : Board) (s : Servo) (hw : Hardware)
    (hA : s.minAngle ≤ s.maxAngle) (hP : s.minPW ≤ s.maxPW) :
    (∀ d : Int, d < s.minAngle → s.write b hw d = s.write b hw s.minAngle) ∧
    (∀ e : Int, s.maxAngle < e → s.write b hw e = s.write b hw s.maxAngle) ∧
    (∀ p : Nat, s.maxPW < p →
      s.writeMicroseconds b hw p = s.writeMicroseconds b hw s.maxPW) ∧
    (∀ q : Nat, q < s.minPW →
      s.writeMicroseconds b hw q = s.writeMicroseconds b hw s.minPW) := by
  refine ⟨fun d hd => ?_, fun e he => ?_, fun p hp => ?_, fun q hq => ?_⟩
  · have c1 : constrain d s.minAngle s.maxAngle =
        constrain s.minAngle s.minAngle s.maxAngle := by
      unfold constrain
      split_ifs <;> omega
    unfold Servo.write
    rw [c1]
  · have c2 : constrain e s.minAngle s.maxAngle =
        constrain s.maxAngle s.minAngle s.maxAngle := by
      unfold constrain
      split_ifs <;> omega
    unfold Servo.write
    rw [c2]
  · have c3 : constrain p s.minPW s.maxPW = constrain s.maxPW s.minPW s.maxPW := by
      unfold constrain
      split_ifs <;> omega
    unfold Servo.writeMicroseconds
    rw [c3]
  · have c4 : constrain q s.minPW s.maxPW = constrain s.minPW s.minPW s.maxPW := by
      unfold constrain
      split_ifs <;> omega
    unfold Servo.writeMicroseconds
    rw [c4]

/-- Witness of C7: `write(minAngle - 10)` and `writeMicroseconds(maxPW + 100)` on a servo
attached to pin `A0` with the default bounds, and `writeMicroseconds(maxPW + 100)` on a
servo whose `minPW` is 0, below which no width exists. -/
theorem write_clamps_witness :
    ((0 : Int) ≤ 180 ∧ (544 : Nat) ≤ 2400) ∧
    (⟨10, 544, 2400, 0, 180⟩ : Servo).write sparkCore (resetHardware 72000000) (0 - 10) =
      (⟨10, 544, 2400, 0, 180⟩ : Servo).write sparkCore (resetHardware 72000000) 0 ∧
    (⟨10, 544, 2400, 0, 180⟩ : Servo).writeMicroseconds sparkCore (resetHardware 72000000)
        (2400 + 100) =
      (⟨10, 544, 2400, 0, 180⟩ : Servo).writeMicroseconds sparkCore (resetHardware 72000000)
        2400 ∧
    (⟨10, 0, 2400, 0, 180⟩ : Servo).writeMicroseconds sparkCore (resetHardware 72000000)
        (2400 + 100) =
      (⟨10, 0, 2400, 0, 180⟩ : Servo).writeMicroseconds sparkCore (resetHardware 72000000)
        2400 :=
  have h := write_clamps sparkCore ⟨10, 544, 2400, 0, 180⟩ (resetHardware 72000000)
    (by decide) (by decide)
  have h0 := write_clamps sparkCore ⟨10, 0, 2400, 0, 180⟩ (resetHardware 72000000)
    (by decide) (by decide)
  ⟨by decide, h.1 (0 - 10) (by decide), h.2.2.1 (2400 + 100) (by decide),
    h0.2.2.1 (2400 + 100) (by decide)⟩


/-! ## Claims on the angle round trip -/

/-- One microsecond below `fromStart`, with an output span smaller than the input span,
`map` truncates toward zero and returns `toStart`. -/
theorem map_of_pred (fromStart fromEnd toStart toEnd : Int)
    (ho : 0 ≤ toEnd - toStart) (hlt : toEnd - toStart < fromEnd - fromStart)
    (hdr : fromEnd - fromStart < 2147483648)
    (hts : -2147483648 ≤ toStart) (hts2 : toStart < 2147483648) :
    map (fromStart - 1) fromStart fromEnd toStart toEnd = toStart := by
  have hq : (toEnd - toStart) / (fromEnd - fromStart) = 0 := Int.ediv_eq_zero_of_lt ho hlt
  have hv : fromStart - 1 - fromStart = -1 := by ring
  unfold map
  rw [hv, toI32_of_range (-1) (by omega) (by omega),
    toI32_of_range (toEnd - toStart) (by omega) (by omega),
    toI32_of_range (fromEnd - fromStart) (by omega) hdr,
    neg_one_mul,
    toI32_of_range (-(toEnd - toStart)) (by omega) (by omega),
    Int.neg_tdiv, Int.tdiv_eq_ediv ho (by omega), hq]
  simp only [neg_zero, zero_add]
  rw [toI32_of_range 0 (by omega) (by omega), zero_add, toI32_of_range toStart hts hts2]

/-- The arithmetic of the angle round trip: an offset `x` in `[0, DA]` is scaled to the
pulse span `DP`, loses `e` microseconds (`e` is 0 or 1) and is scaled back; when the pulse
span is at least twice the angle span the result is `x` or `x - 1`. -/
theorem angle_scale_round_trip (x DA DP e : Int) (hDA : 0 < DA) (hDP : 2 * DA ≤ DP)
    (he : e = 0 ∨ e = 1) (hw : 0 ≤ x * DP / DA - e) :
    0 ≤ (x * DP / DA - e) * DA / DP ∧ (x * DP / DA - e) * DA / DP ≤ x ∧
      x ≤ (x * DP / DA - e) * DA / DP + 1 := by
  have hDPpos : 0 < DP := by omega
  have h1 : x * DP / DA * DA ≤ x * DP := Int.ediv_mul_le _ hDA.ne'
  have h2 : x * DP < (x * DP / DA + 1) * DA := Int.lt_ediv_add_one_mul_self _ hDA
  have h3 : (x * DP / DA + 1) * DA = x * DP / DA * DA + DA := by ring
  have h4 : (x * DP / DA - e) * DA = x * DP / DA * DA - e * DA := by ring
  have h5 : (x - 1) * DP = x * DP - DP := by ring
  have h6 : x * DP = DP * x := by ring
  generalize x * DP / DA = u at h1 h2 h3 h4 hw ⊢
  refine ⟨Int.ediv_nonneg (mul_nonneg hw hDA.le) hDPpos.le, ?_, ?_⟩
  · apply Int.ediv_le_of_le_mul hDPpos
    rcases he with he | he <;> subst he <;> omega
  · have : x - 1 ≤ (u - e) * DA / DP := by
      rw [Int.le_ediv_iff_mul_le hDPpos]
      rcases he with he | he <;> subst he <;> omega
    omega


/-- The value `read()` returns from the pulse width `r` that `readMicroseconds()` gives. -/
theorem read_eq (b : Board) (s : Servo) (hw : Hardware) :
    s.read b hw =
      if s.US_TO_ANGLE (s.readMicroseconds b hw) = s.minAngle ∨
          s.US_TO_ANGLE (s.readMicroseconds b hw) = s.maxAngle
      then s.US_TO_ANGLE (s.readMicroseconds b hw)
      else s.US_TO_ANGLE (s.readMicroseconds b hw) + 1 := by
  unfold Servo.read
  simp only [Bool.or_eq_true, beq_iff_eq]

/-- The angle round trip on an attached instance whose pulse span is at least twice its
angle span, with a period of at least 20000 ticks and `maxPW <= 20000`. -/
theorem write_read_angle (b : Board) (s : Servo) (hw : Hardware) (a : Int)
    (t : TIM_TypeDef) (h : s.attachedTo b t) (hty : s.wellTyped)
    (hclk : hw.SystemCoreClock < 4294967296)
    (hov : 20000 ≤ SERVO_OVERFLOW hw.SystemCoreClock)
    (hA : s.minAngle < s.maxAngle) (hmax : s.maxPW ≤ 20000)
    (hDP : 2 * (s.maxAngle - s.minAngle) ≤ (s.maxPW : Int) - (s.minPW : Int))
    (ha0 : s.minAngle ≤ a) (ha1 : a ≤ s.maxAngle) :
    (a - 1 ≤ (s.write b hw a).1.read b (s.write b hw a).2 ∧
      (s.write b hw a).1.read b (s.write b hw a).2 ≤ a + 1) ∧
    (a = s.minAngle → (s.write b hw a).1.read b (s.write b hw a).2 = a) ∧
    (a = s.maxAngle → s.minAngle + 2 ≤ s.maxAngle →
      (s.write b hw a).1.read b (s.write b hw a).2 = a) := by
  obtain ⟨t1, t2, t3, t4, t5, t6⟩ := hty
  have hty : s.wellTyped := ⟨t1, t2, t3, t4, t5, t6⟩
  have hcon : constrain a s.minAngle s.maxAngle = a := by
    unfold constrain
    split_ifs <;> omega
  have hDA : 0 < s.maxAngle - s.minAngle := by omega
  have hDPpos : 0 ≤ (s.maxPW : Int) - (s.minPW : Int) := by omega
  have hx : 0 ≤ a - s.minAngle := by omega
  have hp0 : 0 ≤ (a - s.minAngle) * ((s.maxPW : Int) - (s.minPW : Int)) :=
    mul_nonneg hx hDPpos
  have hp1 : (a - s.minAngle) * ((s.maxPW : Int) - (s.minPW : Int)) ≤
      ((s.maxPW : Int) - (s.minPW : Int)) * (s.maxAngle - s.minAngle) := by
    rw [mul_comm]
    exact mul_le_mul_of_nonneg_left (by omega) hDPpos
  have hp2 : ((s.maxPW : Int) - (s.minPW : Int)) * (s.maxAngle - s.minAngle) ≤
      20000 * 65535 := mul_le_mul (by omega) (by omega) hDA.le (by omega)
  have hu0 : 0 ≤ (a - s.minAngle) * ((s.maxPW : Int) - (s.minPW : Int)) /
      (s.maxAngle - s.minAngle) := Int.ediv_nonneg hp0 hDA.le
  have hu1 : (a - s.minAngle) * ((s.maxPW : Int) - (s.minPW : Int)) /
      (s.maxAngle - s.minAngle) ≤ (s.maxPW : Int) - (s.minPW : Int) :=
    Int.ediv_le_of_le_mul hDA hp1
  have hmap1 : map a s.minAngle s.maxAngle s.minPW s.maxPW =
      (a - s.minAngle) * ((s.maxPW : Int) - (s.minPW : Int)) / (s.maxAngle - s.minAngle)
        + s.minPW :=
    map_of_nonneg _ _ _ _ _ hx hDA hDPpos (by omega) (by omega) (by omega) (by omega)
      (by omega) (by omega)
  obtain ⟨us, hus⟩ : ∃ us : Nat, (us : Int) =
      (a - s.minAngle) * ((s.maxPW : Int) - (s.minPW : Int)) / (s.maxAngle - s.minAngle)
        + s.minPW :=
    ⟨((a - s.minAngle) * ((s.maxPW : Int) - (s.minPW : Int)) / (s.maxAngle - s.minAngle)
        + s.minPW).toNat, Int.toNat_of_nonneg (by omega)⟩
  have husb : s.minPW ≤ us ∧ us ≤ s.maxPW := by omega
  have hA2U : s.ANGLE_TO_US a = us := by
    unfold Servo.ANGLE_TO_US
    rw [hmap1, ← hus]
    exact toU16_of_le us (by omega)
  have hwr : s.write b hw a = s.writeMicroseconds b hw us := by
    unfold Servo.write
    simp only [hcon, hA2U]
  have hcus : (constrain us s.minPW s.maxPW).toNat = us := by
    rw [constrain_nat, Int.toNat_ofNat]
    split_ifs <;> omega
  obtain ⟨_, r1, r2⟩ := writeMicroseconds_readMicroseconds b s hw us t h hty (by omega)
    hclk hov (by rw [hcus]; omega)
  have hw1 : (s.writeMicroseconds b hw us).1 = s :=
    (writeMicroseconds_effect b s hw us t h).1
  rw [hcus, hw1] at r1 r2
  rw [hwr, hw1, read_eq]
  generalize s.readMicroseconds b (s.writeMicroseconds b hw us).2 = r at r1 r2 ⊢
  -- the angle computed from the pulse width read back
  have hang : ∃ y : Int, s.US_TO_ANGLE r = s.minAngle + y ∧ 0 ≤ y ∧
      y ≤ a - s.minAngle ∧ a - s.minAngle ≤ y + 1 ∧ (a = s.minAngle → y = 0) := by
    by_cases hr : s.minPW ≤ r
    · -- the pulse width read back is not below `minPW`
      have he : (us : Int) - r = 0 ∨ (us : Int) - r = 1 := by omega
      have hrw : (r : Int) - s.minPW =
          (a - s.minAngle) * ((s.maxPW : Int) - (s.minPW : Int)) /
            (s.maxAngle - s.minAngle) - ((us : Int) - r) := by omega
      obtain ⟨y0, y1, y2⟩ := angle_scale_round_trip (a - s.minAngle)
        (s.maxAngle - s.minAngle) ((s.maxPW : Int) - (s.minPW : Int)) ((us : Int) - r)
        hDA hDP he (by omega)
      rw [← hrw] at y0 y1 y2
      refine ⟨((r : Int) - s.minPW) * (s.maxAngle - s.minAngle) /
        ((s.maxPW : Int) - (s.minPW : Int)), ?_, y0, y1, y2, ?_⟩
      · unfold Servo.US_TO_ANGLE
        have hq : ((r : Int) - s.minPW) * (s.maxAngle - s.minAngle) ≤ 20000 * 65535 :=
          mul_le_mul (by omega) (by omega) hDA.le (by omega)
        rw [map_of_nonneg _ _ _ _ _ (by omega) (by omega) (by omega) (by omega) (by omega)
          (by omega) (by omega) (by omega) (by omega)]
        rw [toI16_of_range _ (by omega) (by omega)]
        ring
      · intro hEq
        omega
    · -- the pulse width read back is `minPW - 1`
      have hr1 : (r : Int) = (s.minPW : Int) - 1 := by omega
      have hx0 : a - s.minAngle = 0 := by
        by_contra hne
        have hx1 : 1 ≤ a - s.minAngle := by omega
        have h2 := Int.lt_ediv_add_one_mul_self
          ((a - s.minAngle) * ((s.maxPW : Int) - (s.minPW : Int))) hDA
        have h0 : (a - s.minAngle) * ((s.maxPW : Int) - (s.minPW : Int)) /
            (s.maxAngle - s.minAngle) = 0 := by omega
        rw [h0, zero_add, one_mul] at h2
        have h3 : (s.maxPW : Int) - (s.minPW : Int) ≤
            (a - s.minAngle) * ((s.maxPW : Int) - (s.minPW : Int)) :=
          le_mul_of_one_le_left hDPpos hx1
        omega
      refine ⟨0, ?_, le_refl 0, by omega, by omega, fun _ => rfl⟩
      unfold Servo.US_TO_ANGLE
      rw [hr1, map_of_pred _ _ _ _ (by omega) (by omega) (by omega) (by omega) (by omega),
        toI16_of_range _ (by omega) (by omega)]
      ring
  obtain ⟨y, hy, y0, y1, y2, y3⟩ := hang
  rw [hy]
  split_ifs with hc
  · refine ⟨by omega, fun hEq => ?_, fun hEq h2 => ?_⟩
    · have := y3 hEq
      omega
    · omega
  · have hc1 : ¬ (y = 0) := fun h0 => hc (Or.inl (by omega))
    have hc2 : ¬ (s.minAngle + y = s.maxAngle) := fun h0 => hc (Or.inr h0)
    refine ⟨by omega, fun hEq => ?_, fun hEq h2 => ?_⟩
    · exact absurd (y3 hEq) hc1
    · omega


set_option maxRecDepth 8192 in
/-- C6 (counterexample): at 72 MHz a servo attached with angles 0 to 180 and pulse widths
544 to 744 microseconds (`minAngle < maxAngle`, `minPW < maxPW`) writes the angle 2,
strictly between the bounds, and reads back 0, two degrees away. Further failures: with
angles 0 to 1 the bound 1 reads back as 0; with pulse widths 544 to 30000 the bound 180
reads back as 58; at a core clock of 10 kHz (period 200 ticks) the default bounds read
back 84 for 90. -/
theorem write_read_angle_off_by_two :
    (⟨10, 544, 744, 0, 180⟩ : Servo).attachedTo sparkCore TIM_TypeDef.TIM2 ∧
    ((0 : Int) < 180 ∧ (544 : Nat) < 744 ∧ (0 : Int) < 2 ∧ (2 : Int) < 180) ∧
    ((⟨10, 544, 744, 0, 180⟩ : Servo).write sparkCore (resetHardware 72000000) 2).1.read
      sparkCore ((⟨10, 544, 744, 0, 180⟩ : Servo).write sparkCore (resetHardware 72000000)
        2).2 = 0 ∧
    ((⟨10, 544, 2400, 0, 1⟩ : Servo).write sparkCore (resetHardware 72000000) 1).1.read
      sparkCore ((⟨10, 544, 2400, 0, 1⟩ : Servo).write sparkCore (resetHardware 72000000)
        1).2 = 0 ∧
    ((⟨10, 544, 30000, 0, 180⟩ : Servo).write sparkCore (resetHardware 72000000) 180).1.read
      sparkCore ((⟨10, 544, 30000, 0, 180⟩ : Servo).write sparkCore (resetHardware 72000000)
        180).2 = 58 ∧
    SERVO_OVERFLOW 10000 = 200 ∧
    ((⟨10, 544, 2400, 0, 180⟩ : Servo).write sparkCore (resetHardware 10000) 90).1.read
      sparkCore ((⟨10, 544, 2400, 0, 180⟩ : Servo).write sparkCore (resetHardware 10000)
        90).2 = 84 := by
  exact ⟨⟨rfl, rfl, Or.inl rfl⟩, by decide, rfl, rfl, rfl, by decide, rfl⟩

/-- C6 (amended): for every attached instance with `int16_t` angle bounds
`minAngle < maxAngle` and `uint16_t` pulse bounds with `maxPW <= 20000` and
`maxPW - minPW >= 2 * (maxAngle - minAngle)`, at a core clock whose period
`SERVO_OVERFLOW` is at least 20000 ticks (as at 72 MHz): for every angle `a` strictly
between `minAngle` and `maxAngle`, `write(a)` followed by `read()` returns a value within
1 degree of `a`; `write(minAngle)` followed by `read()` returns `minAngle`; and
`write(maxAngle)` followed by `read()` returns `maxAngle` when
`maxAngle - minAngle >= 2`. -/
theorem write_read_within_one_degree (b : Board) (s : Servo) (hw : Hardware) (a : Int)
    (t : TIM_TypeDef) (h : s.attachedTo b t) (hty : s.wellTyped)
    (hclk : hw.SystemCoreClock < 4294967296)
    (hov : 20000 ≤ SERVO_OVERFLOW hw.SystemCoreClock)
    (hA : s.minAngle < s.maxAngle) (hmax : s.maxPW ≤ 20000)
    (hDP : 2 * (s.maxAngle - s.minAngle) ≤ (s.maxPW : Int) - (s.minPW : Int)) :
    (s.minAngle < a → a < s.maxAngle →
      |(s.write b hw a).1.read b (s.write b hw a).2 - a| ≤ 1) ∧
    (a = s.minAngle → (s.write b hw a).1.read b (s.write b hw a).2 = s.minAngle) ∧
    (a = s.maxAngle → s.minAngle + 2 ≤ s.maxAngle →
      (s.write b hw a).1.read b (s.write b hw a).2 = s.maxAngle) := by
  refine ⟨fun h0 h1 => ?_, fun h0 => ?_, fun h0 h2 => ?_⟩
  · obtain ⟨⟨r1, r2⟩, _, _⟩ := write_read_angle b s hw a t h hty hclk hov hA hmax hDP
      (by omega) (by omega)
    rw [abs_le]
    constructor <;> omega
  · obtain ⟨_, r, _⟩ := write_read_angle b s hw a t h hty hclk hov hA hmax hDP
      (by omega) (by omega)
    rw [r h0, h0]
  · obtain ⟨_, _, r⟩ := write_read_angle b s hw a t h hty hclk hov hA hmax hDP
      (by omega) (by omega)
    rw [r h0 h2, h0]

/-- Witness of C6: the angle 90 on a servo attached to pin `A0` with the default bounds at
72 MHz. -/
theorem write_read_within_one_degree_witness :
    (⟨10, 544, 2400, 0, 180⟩ : Servo).attachedTo sparkCore TIM_TypeDef.TIM2 ∧
    20000 ≤ SERVO_OVERFLOW (resetHardware 72000000).SystemCoreClock ∧
    |((⟨10, 544, 2400, 0, 180⟩ : Servo).write sparkCore (resetHardware 72000000) 90).1.read
      sparkCore ((⟨10, 544, 2400, 0, 180⟩ : Servo).write sparkCore (resetHardware 72000000)
        90).2 - 90| ≤ 1 :=
  have hatt : (⟨10, 544, 2400, 0, 180⟩ : Servo).attachedTo sparkCore TIM_TypeDef.TIM2 :=
    ⟨rfl, rfl, Or.inl rfl⟩
  ⟨hatt, by decide, (write_read_within_one_degree sparkCore ⟨10, 544, 2400, 0, 180⟩
    (resetHardware 72000000) 90 TIM_TypeDef.TIM2 hatt (by unfold Servo.wellTyped; decide)
    (by decide) (by decide) (by decide) (by decide) (by decide)).1 (by decide) (by decide)⟩

/-! ## Claims on a detached instance -/

/-- C11: while the instance is detached, `writeMicroseconds` and `write` return the
instance and the hardware state they were given, for every argument, and
`readMicroseconds` returns 0. -/
theorem detached_write_noop (b : Board) (s : Servo) (hw : Hardware) (p : Nat) (d : Int)
    (h : s.attached b = false) :
    s.writeMicroseconds b hw p = (s, hw) ∧ s.write b hw d = (s, hw) ∧
      s.readMicroseconds b hw = 0 := by
  refine ⟨?_, ?_, ?_⟩
  · simp [Servo.writeMicroseconds, h]
  · simp [Servo.write, Servo.writeMicroseconds, h]
  · simp [Servo.readMicroseconds, h]

/-- Witness of C11: a freshly constructed servo on the Spark Core. -/
theorem detached_write_noop_witness :
    (Servo.new sparkCore).attached sparkCore = false ∧
    (Servo.new sparkCore).writeMicroseconds sparkCore (resetHardware 72000000) 1500 =
      (Servo.new sparkCore, resetHardware 72000000) ∧
    (Servo.new sparkCore).write sparkCore (resetHardware 72000000) 90 =
      (Servo.new sparkCore, resetHardware 72000000) ∧
    (Servo.new sparkCore).readMicroseconds sparkCore (resetHardware 72000000) = 0 :=
  ⟨rfl, detached_write_noop sparkCore (Servo.new sparkCore) (resetHardware 72000000) 1500 90
    rfl⟩

set_option maxRecDepth 8192 in
/-- C12 (counterexample): a freshly constructed, detached servo has the default bounds;
the inverse mapping assigns `map(0, 544, 2400, 0, 180) = -52` to a pulse width of 0, but
`read()` returns -51. -/
theorem detached_read_not_mapped_value :
    (Servo.new sparkCore).attached sparkCore = false ∧
    (Servo.new sparkCore).minPW = 544 ∧ (Servo.new sparkCore).maxPW = 2400 ∧
    (Servo.new sparkCore).minAngle = 0 ∧ (Servo.new sparkCore).maxAngle = 180 ∧
    map 0 544 2400 0 180 = -52 ∧
    (Servo.new sparkCore).read sparkCore (resetHardware 72000000) = -51 ∧
    (Servo.new sparkCore).read sparkCore (resetHardware 72000000) ≠ map 0 544 2400 0 180 := by
  refine ⟨rfl, rfl, rfl, rfl, rfl, rfl, rfl, ?_⟩
  decide

set_option maxRecDepth 8192 in
/-- C12 (amended): while the instance is detached, with the default bounds 544/2400
microseconds and 0/180 degrees, `read()` returns the angle that the inverse linear mapping
`map(0, minPW, maxPW, minAngle, maxAngle)` assigns to a pulse width of 0, plus the
correction of one degree that `read()` adds to every angle other than the two bounds:
`-52 + 1 = -51`. -/
theorem detached_read (b : Board) (s : Servo) (hw : Hardware)
    (h : s.attached b = false)
    (h1 : s.minPW = SERVO_DEFAULT_MIN_PW) (h2 : s.maxPW = SERVO_DEFAULT_MAX_PW)
    (h3 : s.minAngle = SERVO_DEFAULT_MIN_ANGLE) (h4 : s.maxAngle = SERVO_DEFAULT_MAX_ANGLE) :
    s.read b hw = map 0 s.minPW s.maxPW s.minAngle s.maxAngle + 1 ∧
      map 0 s.minPW s.maxPW s.minAngle s.maxAngle = -52 ∧ s.read b hw = -51 := by
  have hr : s.readMicroseconds b hw = 0 := by simp [Servo.readMicroseconds, h]
  have hm : map 0 s.minPW s.maxPW s.minAngle s.maxAngle = -52 := by
    rw [h1, h2, h3, h4]
    rfl
  have hu : s.US_TO_ANGLE ((0 : Nat) : Int) = -52 := by
    unfold Servo.US_TO_ANGLE
    rw [Nat.cast_zero, hm]
    rfl
  have hrd : s.read b hw = -51 := by
    rw [read_eq, hr, hu, h3, h4]
    rfl
  rw [hm, hrd]
  exact ⟨rfl, rfl, rfl⟩

/-- Witness of C12: a freshly constructed servo on the Spark Core. -/
theorem detached_read_witness :
    (Servo.new sparkCore).attached sparkCore = false ∧
    (Servo.new sparkCore).read sparkCore (resetHardware 72000000) = -51 :=
  ⟨rfl, (detached_read sparkCore (Servo.new sparkCore) (resetHardware 72000000) rfl rfl rfl
    rfl rfl).2.2⟩

/-! ## Further claims on the timer configuration and the compare value -/

/-- C18: for every unsigned 32-bit core clock the product
`SERVO_PRESCALER * SERVO_OVERFLOW` differs from `TAU_CYC = 20 * CYC_MSEC` by at most
`SERVO_PRESCALER / 2` core-clock cycles. -/
theorem prescaler_overflow_product (clk : Nat) (h : clk < 4294967296) :
    TAU_CYC clk = 20 * CYC_MSEC clk ∧
    SERVO_PRESCALER clk * SERVO_OVERFLOW clk ≤ TAU_CYC clk + SERVO_PRESCALER clk / 2 ∧
    TAU_CYC clk ≤ SERVO_PRESCALER clk * SERVO_OVERFLOW clk + SERVO_PRESCALER clk / 2 := by
  obtain ⟨hP, _, _⟩ := SERVO_PRESCALER_bounds clk h
  have hT : TAU_CYC clk = 20 * CYC_MSEC clk := by
    rw [TAU_CYC_eq clk h]
    rfl
  refine ⟨hT, ?_⟩
  rw [SERVO_OVERFLOW_eq_exact clk h]
  unfold SERVO_OVERFLOW_exact roundDiv
  generalize TAU_CYC clk = T
  generalize SERVO_PRESCALER clk = P at hP
  have h1 : (2 * T + P) / (2 * P) * (2 * P) ≤ 2 * T + P := Nat.div_mul_le_self _ _
  have h2 : 2 * T + P < (2 * T + P) / (2 * P) * (2 * P) + 2 * P :=
    Nat.lt_div_mul_add (by omega)
  generalize (2 * T + P) / (2 * P) = q at h1 h2
  have h3 : q * (2 * P) = 2 * (P * q) := by ring
  omega

/-- Witness of C18: the 72 MHz configuration, `22 * 65455 = 1440010`. -/
theorem prescaler_overflow_product_witness :
    SERVO_PRESCALER 72000000 * SERVO_OVERFLOW 72000000 ≤
      TAU_CYC 72000000 + SERVO_PRESCALER 72000000 / 2 ∧
    TAU_CYC 72000000 ≤
      SERVO_PRESCALER 72000000 * SERVO_OVERFLOW 72000000 + SERVO_PRESCALER 72000000 / 2 :=
  (prescaler_overflow_product 72000000 (by decide)).2

/-- The compare value of a pulse width within the 20000 microsecond frame: the truncating
quotient, which needs no reduction and does not exceed the period. -/
theorem US_TO_COMPARE_of_le_frame (clk us : Nat) (hclk : clk < 4294967296)
    (hus : us ≤ 20000) :
    US_TO_COMPARE clk us = us * SERVO_OVERFLOW clk / 20000 ∧
      us * SERVO_OVERFLOW clk < 2147483648 ∧
      us * SERVO_OVERFLOW clk / 20000 ≤ SERVO_OVERFLOW clk := by
  have hov : SERVO_OVERFLOW clk ≤ 65535 := by
    rw [SERVO_OVERFLOW_eq_exact clk hclk]
    exact SERVO_OVERFLOW_exact_le clk hclk
  have hprod : us * SERVO_OVERFLOW clk ≤ 20000 * 65535 := Nat.mul_le_mul hus hov
  have hq : us * SERVO_OVERFLOW clk / 20000 ≤ SERVO_OVERFLOW clk := by
    apply Nat.div_le_of_le_mul
    exact Nat.mul_le_mul_right _ hus
  refine ⟨?_, by omega, hq⟩
  rw [US_TO_COMPARE_eq clk us hclk (by omega) (by omega)]
  exact Nat.mod_eq_of_lt (by omega)

/-- The compare value that `writeMicroseconds` leaves in the channel of an attached
instance with `minPW <= maxPW <= 20000`: the clamped width times the period over 20000. -/
theorem writeMicroseconds_compare_of_le_frame (b : Board) (s : Servo) (hw : Hardware)
    (p : Nat) (t : TIM_TypeDef) (h : s.attachedTo b t)
    (hclk : hw.SystemCoreClock < 4294967296) (hP : s.minPW ≤ s.maxPW)
    (hmax : s.maxPW ≤ 20000) :
    ∃ c : Nat, s.minPW ≤ c ∧ c ≤ s.maxPW ∧ (p < s.minPW → c = s.minPW) ∧
      (s.maxPW < p → c = s.maxPW) ∧ (s.minPW ≤ p → p ≤ s.maxPW → c = p) ∧
      ((s.writeMicroseconds b hw p).2.tim t).compare (s.pinInfo b).timer_ch =
        c * SERVO_OVERFLOW hw.SystemCoreClock / 20000 := by
  obtain ⟨_, e2, _⟩ := writeMicroseconds_effect b s hw p t h
  refine ⟨if p < s.minPW then s.minPW else if p > s.maxPW then s.maxPW else p,
    ?_, ?_, ?_, ?_, ?_, ?_⟩
  · split_ifs <;> omega
  · split_ifs <;> omega
  · intro h0
    rw [if_pos h0]
  · intro h0
    split_ifs <;> omega
  · intro h0 h1
    split_ifs <;> omega
  · have hc : (if p < s.minPW then s.minPW else if p > s.maxPW then s.maxPW else p)
        ≤ 20000 := by
      split_ifs <;> omega
    rw [e2, constrain_nat, toU16_of_le _ (by omega)]
    exact (US_TO_COMPARE_of_le_frame _ _ hclk hc).1

/-- C16: for every core clock, every attached instance with `minPW <= maxPW <= 20000` and
every 16-bit argument `p`, the compare value that `writeMicroseconds(p)` writes lies
between `US_TO_COMPARE(minPW)` and `US_TO_COMPARE(maxPW)`, and `US_TO_COMPARE(maxPW)` is
at most `SERVO_OVERFLOW`. -/
theorem writeMicroseconds_compare_within_bounds (b : Board) (s : Servo) (hw : Hardware)
    (p : Nat) (t : TIM_TypeDef) (h : s.attachedTo b t)
    (hclk : hw.SystemCoreClock < 4294967296) (hP : s.minPW ≤ s.maxPW)
    (hmax : s.maxPW ≤ 20000) :
    US_TO_COMPARE hw.SystemCoreClock s.minPW ≤
        ((s.writeMicroseconds b hw p).2.tim t).compare (s.pinInfo b).timer_ch ∧
      ((s.writeMicroseconds b hw p).2.tim t).compare (s.pinInfo b).timer_ch ≤
        US_TO_COMPARE hw.SystemCoreClock s.maxPW ∧
      US_TO_COMPARE hw.SystemCoreClock s.maxPW ≤ SERVO_OVERFLOW hw.SystemCoreClock := by
  obtain ⟨c, c1, c2, _, _, _, hc⟩ :=
    writeMicroseconds_compare_of_le_frame b s hw p t h hclk hP hmax
  obtain ⟨m1, _, _⟩ := US_TO_COMPARE_of_le_frame hw.SystemCoreClock s.minPW hclk (by omega)
  obtain ⟨m2, _, m3⟩ := US_TO_COMPARE_of_le_frame hw.SystemCoreClock s.maxPW hclk hmax
  rw [hc, m1, m2]
  exact ⟨Nat.div_le_div_right (Nat.mul_le_mul_right _ c1),
    Nat.div_le_div_right (Nat.mul_le_mul_right _ c2), m3⟩

/-- Witness of C16: writing 3000 microseconds, above `maxPW`, to a servo on pin `A0` with
the default bounds at 72 MHz. -/
theorem writeMicroseconds_compare_within_bounds_witness :
    (⟨10, 544, 2400, 0, 180⟩ : Servo).attachedTo sparkCore TIM_TypeDef.TIM2 ∧
    US_TO_COMPARE 72000000 544 ≤
      (((⟨10, 544, 2400, 0, 180⟩ : Servo).writeMicroseconds sparkCore
        (resetHardware 72000000) 3000).2.tim TIM_TypeDef.TIM2).compare TIM_Channel_1 ∧
    (((⟨10, 544, 2400, 0, 180⟩ : Servo).writeMicroseconds sparkCore
        (resetHardware 72000000) 3000).2.tim TIM_TypeDef.TIM2).compare TIM_Channel_1 ≤
      US_TO_COMPARE 72000000 2400 ∧
    US_TO_COMPARE 72000000 2400 ≤ SERVO_OVERFLOW 72000000 :=
  have hatt : (⟨10, 544, 2400, 0, 180⟩ : Servo).attachedTo sparkCore TIM_TypeDef.TIM2 :=
    ⟨rfl, rfl, Or.inl rfl⟩
  ⟨hatt, writeMicroseconds_compare_within_bounds sparkCore ⟨10, 544, 2400, 0, 180⟩
    (resetHardware 72000000) 3000 TIM_TypeDef.TIM2 hatt (by decide) (by decide)
    (by decide)⟩

/-- C15: for an attached instance at 72 MHz (overflow 65455) and every pulse width `p`
with `minPW <= p <= maxPW <= 20000`, `writeMicroseconds(p)` followed by
`readMicroseconds()` returns `p` or `p - 1`; the products `p * overflow` and
`compare * 20000` formed by `map` stay below `2^31`, the compare value is the quotient
`p * overflow / 20000` itself and the value read is the quotient
`compare * 20000 / overflow` itself, both at most 65535, so that neither 16-bit cast
truncates. -/
theorem writeMicroseconds_readMicroseconds_exact_arith (b : Board) (s : Servo)
    (hw : Hardware) (p : Nat) (t : TIM_TypeDef) (h : s.attachedTo b t) (hty : s.wellTyped)
    (hclk : hw.SystemCoreClock = 72000000) (hlo : s.minPW ≤ p) (hhi : p ≤ s.maxPW)
    (hmax : s.maxPW ≤ 20000) :
    ((s.writeMicroseconds b hw p).1.readMicroseconds b (s.writeMicroseconds b hw p).2 = p ∨
      (s.writeMicroseconds b hw p).1.readMicroseconds b (s.writeMicroseconds b hw p).2 + 1
        = p) ∧
    p * SERVO_OVERFLOW hw.SystemCoreClock < 2147483648 ∧
    ((s.writeMicroseconds b hw p).2.tim t).compare (s.pinInfo b).timer_ch =
      p * 65455 / 20000 ∧
    p * 65455 / 20000 ≤ 65535 ∧
    p * 65455 / 20000 * 20000 < 2147483648 ∧
    (s.writeMicroseconds b hw p).1.readMicroseconds b (s.writeMicroseconds b hw p).2 =
      p * 65455 / 20000 * 20000 / 65455 ∧
    p * 65455 / 20000 * 20000 / 65455 ≤ 65535 := by
  have hov : SERVO_OVERFLOW hw.SystemCoreClock = 65455 := by
    rw [hclk]
    decide
  have hc : (constrain p s.minPW s.maxPW).toNat = p := by
    rw [constrain_nat, Int.toNat_ofNat]
    split_ifs <;> omega
  obtain ⟨r0, r1, r2⟩ := writeMicroseconds_readMicroseconds b s hw p t h hty (by omega)
    (by omega) (by omega) (by omega)
  obtain ⟨c, _, _, _, _, c5, c6⟩ :=
    writeMicroseconds_compare_of_le_frame b s hw p t h (by omega) (by omega) hmax
  rw [c5 hlo hhi, hov] at c6
  rw [hc, hov] at r0
  rw [hc] at r1 r2
  rw [hov]
  exact ⟨by omega, by omega, c6, by omega, by omega, r0, by omega⟩

/-- Witness of C15: writing 1000 microseconds to a servo on pin `A0` at 72 MHz. -/
theorem writeMicroseconds_readMicroseconds_exact_arith_witness :
    (⟨10, 544, 2400, 0, 180⟩ : Servo).attachedTo sparkCore TIM_TypeDef.TIM2 ∧
    (544 ≤ 1000 ∧ 1000 ≤ 2400 ∧ 2400 ≤ 20000) ∧
    ((⟨10, 544, 2400, 0, 180⟩ : Servo).writeMicroseconds sparkCore (resetHardware 72000000)
      1000).1.readMicroseconds sparkCore
      ((⟨10, 544, 2400, 0, 180⟩ : Servo).writeMicroseconds sparkCore (resetHardware 72000000)
        1000).2 = 1000 * 65455 / 20000 * 20000 / 65455 :=
  have hatt : (⟨10, 544, 2400, 0, 180⟩ : Servo).attachedTo sparkCore TIM_TypeDef.TIM2 :=
    ⟨rfl, rfl, Or.inl rfl⟩
  ⟨hatt, by decide, (writeMicroseconds_readMicroseconds_exact_arith sparkCore
    ⟨10, 544, 2400, 0, 180⟩ (resetHardware 72000000) 1000 TIM_TypeDef.TIM2 hatt
    (by unfold Servo.wellTyped; decide) rfl (by decide) (by decide) (by decide)).2.2.2.2.2.1⟩

/-- The pulse width that `ANGLE_TO_US` computes for an angle within the bounds of an
instance with `minAngle < maxAngle` and `minPW <= maxPW <= 20000`: the linear
interpolation, which lies between `minPW` and `maxPW`. -/
theorem ANGLE_TO_US_eq (s : Servo) (a : Int) (hty : s.wellTyped)
    (hA : s.minAngle < s.maxAngle) (hP : s.minPW ≤ s.maxPW) (hmax : s.maxPW ≤ 20000)
    (ha0 : s.minAngle ≤ a) (ha1 : a ≤ s.maxAngle) :
    (s.ANGLE_TO_US a : Int) =
      (a - s.minAngle) * ((s.maxPW : Int) - (s.minPW : Int)) / (s.maxAngle - s.minAngle)
        + s.minPW ∧
    s.minPW ≤ s.ANGLE_TO_US a ∧ s.ANGLE_TO_US a ≤ s.maxPW := by
  obtain ⟨t1, t2, t3, t4, t5, t6⟩ := hty
  have hDA : 0 < s.maxAngle - s.minAngle := by omega
  have hDPpos : 0 ≤ (s.maxPW : Int) - (s.minPW : Int) := by omega
  have hx : 0 ≤ a - s.minAngle := by omega
  have hp0 : 0 ≤ (a - s.minAngle) * ((s.maxPW : Int) - (s.minPW : Int)) :=
    mul_nonneg hx hDPpos
  have hp1 : (a - s.minAngle) * ((s.maxPW : Int) - (s.minPW : Int)) ≤
      ((s.maxPW : Int) - (s.minPW : Int)) * (s.maxAngle - s.minAngle) := by
    rw [mul_comm]
    exact mul_le_mul_of_nonneg_left (by omega) hDPpos
  have hp2 : ((s.maxPW : Int) - (s.minPW : Int)) * (s.maxAngle - s.minAngle) ≤
      20000 * 65535 := mul_le_mul (by omega) (by omega) hDA.le (by omega)
  have hu0 : 0 ≤ (a - s.minAngle) * ((s.maxPW : Int) - (s.minPW : Int)) /
      (s.maxAngle - s.minAngle) := Int.ediv_nonneg hp0 hDA.le
  have hu1 : (a - s.minAngle) * ((s.maxPW : Int) - (s.minPW : Int)) /
      (s.maxAngle - s.minAngle) ≤ (s.maxPW : Int) - (s.minPW : Int) :=
    Int.ediv_le_of_le_mul hDA hp1
  have hmap1 : map a s.minAngle s.maxAngle s.minPW s.maxPW =
      (a - s.minAngle) * ((s.maxPW : Int) - (s.minPW : Int)) / (s.maxAngle - s.minAngle)
        + s.minPW :=
    map_of_nonneg _ _ _ _ _ hx hDA hDPpos (by omega) (by omega) (by omega) (by omega)
      (by omega) (by omega)
  have hval : (s.ANGLE_TO_US a : Int) =
      (a - s.minAngle) * ((s.maxPW : Int) - (s.minPW : Int)) / (s.maxAngle - s.minAngle)
        + s.minPW := by
    unfold Servo.ANGLE_TO_US
    rw [hmap1]
    exact toU16_of_range _ (by omega) (by omega)
  refine ⟨hval, ?_, ?_⟩ <;> omega

/-- The constrained angle lies within the bounds and `constrain` is monotone. -/
theorem constrain_mono (a a' lo hi : Int) (h : lo ≤ hi) (haa : a ≤ a') :
    lo ≤ constrain a lo hi ∧ constrain a lo hi ≤ hi ∧
      constrain a lo hi ≤ constrain a' lo hi := by
  unfold constrain
  split_ifs <;> omega

/-- C17: for every attached instance with `int16_t` angle bounds `minAngle < maxAngle` and
pulse bounds `minPW <= maxPW <= 20000`, and all angles `a <= a'`, the compare value
written by `write(a)` is at most the compare value written by `write(a')`. -/
theorem write_monotone (b : Board) (s : Servo) (hw : Hardware) (a a' : Int)
    (t : TIM_TypeDef) (h : s.attachedTo b t) (hty : s.wellTyped)
    (hclk : hw.SystemCoreClock < 4294967296)
    (hA : s.minAngle < s.maxAngle) (hP : s.minPW ≤ s.maxPW) (hmax : s.maxPW ≤ 20000)
    (haa : a ≤ a') :
    ((s.write b hw a).2.tim t).compare (s.pinInfo b).timer_ch ≤
      ((s.write b hw a').2.tim t).compare (s.pinInfo b).timer_ch := by
  obtain ⟨k1, k2, k3⟩ := constrain_mono a a' s.minAngle s.maxAngle hA.le haa
  obtain ⟨l1, l2, _⟩ := constrain_mono a' a' s.minAngle s.maxAngle hA.le (le_refl a')
  obtain ⟨u1, u2, u3⟩ := ANGLE_TO_US_eq s _ hty hA hP hmax k1 k2
  obtain ⟨v1, v2, v3⟩ := ANGLE_TO_US_eq s _ hty hA hP hmax l1 l2
  have hDA : 0 < s.maxAngle - s.minAngle := by omega
  have hDPpos : 0 ≤ (s.maxPW : Int) - (s.minPW : Int) := by omega
  have hmono : s.ANGLE_TO_US (constrain a s.minAngle s.maxAngle) ≤
      s.ANGLE_TO_US (constrain a' s.minAngle s.maxAngle) := by
    have hq : (constrain a s.minAngle s.maxAngle - s.minAngle) *
          ((s.maxPW : Int) - (s.minPW : Int)) / (s.maxAngle - s.minAngle) ≤
        (constrain a' s.minAngle s.maxAngle - s.minAngle) *
          ((s.maxPW : Int) - (s.minPW : Int)) / (s.maxAngle - s.minAngle) :=
      Int.ediv_le_ediv hDA (mul_le_mul_of_nonneg_right (by omega) hDPpos)
    omega
  obtain ⟨c, _, _, _, _, c5, c6⟩ := writeMicroseconds_compare_of_le_frame b s hw
    (s.ANGLE_TO_US (constrain a s.minAngle s.maxAngle)) t h hclk hP hmax
  obtain ⟨d, _, _, _, _, d5, d6⟩ := writeMicroseconds_compare_of_le_frame b s hw
    (s.ANGLE_TO_US (constrain a' s.minAngle s.maxAngle)) t h hclk hP hmax
  rw [c5 u2 u3] at c6
  rw [d5 v2 v3] at d6
  have e1 : s.write b hw a =
      s.writeMicroseconds b hw (s.ANGLE_TO_US (constrain a s.minAngle s.maxAngle)) := rfl
  have e2 : s.write b hw a' =
      s.writeMicroseconds b hw (s.ANGLE_TO_US (constrain a' s.minAngle s.maxAngle)) := rfl
  rw [e1, e2, c6, d6]
  exact Nat.div_le_div_right (Nat.mul_le_mul_right _ hmono)

/-- Witness of C17: the angles 30 and 120 on a servo attached to pin `A0` with the default
bounds at 72 MHz. -/
theorem write_monotone_witness :
    (⟨10, 544, 2400, 0, 180⟩ : Servo).attachedTo sparkCore TIM_TypeDef.TIM2 ∧
    (((⟨10, 544, 2400, 0, 180⟩ : Servo).write sparkCore (resetHardware 72000000)
      30).2.tim TIM_TypeDef.TIM2).compare TIM_Channel_1 ≤
    (((⟨10, 544, 2400, 0, 180⟩ : Servo).write sparkCore (resetHardware 72000000)
      120).2.tim TIM_TypeDef.TIM2).compare TIM_Channel_1 :=
  have hatt : (⟨10, 544, 2400, 0, 180⟩ : Servo).attachedTo sparkCore TIM_TypeDef.TIM2 :=
    ⟨rfl, rfl, Or.inl rfl⟩
  ⟨hatt, write_monotone sparkCore ⟨10, 544, 2400, 0, 180⟩ (resetHardware 72000000) 30 120
    TIM_TypeDef.TIM2 hatt (by unfold Servo.wellTyped; decide) (by decide) (by decide)
    (by decide) (by decide) (by decide)⟩

/-- On an attached instance `write(a)` followed by `read()` returns `angleRoundTrip`. -/
theorem write_read_eq_angleRoundTrip (b : Board) (s : Servo) (hw : Hardware) (a : Int)
    (t : TIM_TypeDef) (h : s.attachedTo b t) :
    (s.write b hw a).1.read b (s.write b hw a).2 =
      angleRoundTrip s hw.SystemCoreClock a := by
  have e1 : s.write b hw a =
      s.writeMicroseconds b hw (s.ANGLE_TO_US (constrain a s.minAngle s.maxAngle)) := rfl
  obtain ⟨w1, w2, _, _, _, w6⟩ := writeMicroseconds_effect b s hw
    (s.ANGLE_TO_US (constrain a s.minAngle s.maxAngle)) t h
  rw [e1, w1, read_eq, readMicroseconds_eq b s _ t h, w2, w6]
  rfl

set_option maxRecDepth 100000 in
/-- The angle round trip with the default bounds at 72 MHz, evaluated on every angle from
0 to 180: every angle is read back unchanged except 1, which is read back as 0. -/
theorem angleRoundTrip_defaults : ∀ n : Fin 181,
    angleRoundTrip ⟨0, 544, 2400, 0, 180⟩ 72000000 ((n : Nat) : Int) =
      if (n : Nat) = 1 then 0 else ((n : Nat) : Int) := by
  decide

/-- C13: with the default bounds (angles 0/180, pulse widths 544/2400 microseconds) on an
attached instance at a 72 MHz core clock (overflow 65455), for every integer angle `a` in
`[0, 180]` other than 1 and 179, `write(a)` followed by `read()` returns exactly `a`; for
`a = 1` and `a = 179` the result differs from `a` by at most 1. -/
theorem write_read_default_bounds (b : Board) (s : Servo) (hw : Hardware) (a : Int)
    (t : TIM_TypeDef) (h : s.attachedTo b t)
    (h1 : s.minPW = SERVO_DEFAULT_MIN_PW) (h2 : s.maxPW = SERVO_DEFAULT_MAX_PW)
    (h3 : s.minAngle = SERVO_DEFAULT_MIN_ANGLE) (h4 : s.maxAngle = SERVO_DEFAULT_MAX_ANGLE)
    (hclk : hw.SystemCoreClock = 72000000) (ha0 : 0 ≤ a) (ha1 : a ≤ 180) :
    SERVO_OVERFLOW hw.SystemCoreClock = 65455 ∧
    (a ≠ 1 → a ≠ 179 → (s.write b hw a).1.read b (s.write b hw a).2 = a) ∧
    (a = 1 ∨ a = 179 → |(s.write b hw a).1.read b (s.write b hw a).2 - a| ≤ 1) := by
  have hov : SERVO_OVERFLOW hw.SystemCoreClock = 65455 := by
    rw [hclk]
    decide
  have hs : angleRoundTrip s hw.SystemCoreClock a =
      angleRoundTrip ⟨0, 544, 2400, 0, 180⟩ 72000000 a := by
    rw [hclk]
    cases s
    simp only at h1 h2 h3 h4
    subst h1 h2 h3 h4
    rfl
  have hn : a.toNat < 181 := by omega
  have ha : ((a.toNat : Nat) : Int) = a := Int.toNat_of_nonneg ha0
  have htab := angleRoundTrip_defaults ⟨a.toNat, hn⟩
  simp only [ha] at htab
  rw [write_read_eq_angleRoundTrip b s hw a t h, hs, htab]
  refine ⟨hov, fun n1 _ => ?_, fun hc => ?_⟩
  · rw [if_neg (by omega)]
  · rcases hc with hc | hc
    · subst hc
      decide
    · subst hc
      decide

/-- Witness of C13: the angle 90 on a servo attached to pin `A0` with the default bounds
at 72 MHz. -/
theorem write_read_default_bounds_witness :
    (⟨10, 544, 2400, 0, 180⟩ : Servo).attachedTo sparkCore TIM_TypeDef.TIM2 ∧
    ((⟨10, 544, 2400, 0, 180⟩ : Servo).write sparkCore (resetHardware 72000000) 90).1.read
      sparkCore ((⟨10, 544, 2400, 0, 180⟩ : Servo).write sparkCore (resetHardware 72000000)
        90).2 = 90 :=
  have hatt : (⟨10, 544, 2400, 0, 180⟩ : Servo).attachedTo sparkCore TIM_TypeDef.TIM2 :=
    ⟨rfl, rfl, Or.inl rfl⟩
  ⟨hatt, (write_read_default_bounds sparkCore ⟨10, 544, 2400, 0, 180⟩
    (resetHardware 72000000) 90 TIM_TypeDef.TIM2 hatt rfl rfl rfl rfl rfl (by decide)
    (by decide)).2.1 (by decide) (by decide)⟩

/-! ## Claims on re-attaching -/

theorem onTimer_onTimer (hw : Hardware) (tp : Option TIM_TypeDef) (f g : TimRegs → TimRegs) :
    (hw.onTimer tp f).onTimer tp g = hw.onTimer tp (fun r => g (f r)) := by
  cases tp with
  | none => rfl
  | some t => simp [Hardware.onTimer]

theorem attachClocks_onTimer (b : Board) (pin : Nat) (hw : Hardware)
    (tp : Option TIM_TypeDef) (f : TimRegs → TimRegs) :
    attachClocks b pin (hw.onTimer tp f) = (attachClocks b pin hw).onTimer tp f := by
  cases tp with
  | none => rfl
  | some t =>
    unfold attachClocks
    simp only []
    split_ifs <;> rfl

theorem attachClocks_idem (b : Board) (pin : Nat) (hw : Hardware) :
    attachClocks b pin (attachClocks b pin hw) = attachClocks b pin hw := by
  unfold attachClocks
  simp only []
  split_ifs <;>
    simp [RCC_APB1PeriphClockCmd, pinMode, RCC_APB2PeriphClockCmd_AFIO]

/-- The hardware steps of `attach` as one update of the pin's timer on top of the clock
and pin-mode setup. -/
theorem attachHardware_eq (b : Board) (s : Servo) (pin : Nat) (hw : Hardware)
    (hs : s.pinInfo b = b.PIN_MAP pin) :
    s.attachHardware b pin hw =
      (attachClocks b pin hw).onTimer (b.PIN_MAP pin).timer_peripheral
        (attachTimerRegs (b.PIN_MAP pin).timer_ch (SERVO_OVERFLOW hw.SystemCoreClock)
          (toU16 ((SERVO_PRESCALER hw.SystemCoreClock : Int) - 1))) := by
  obtain ⟨c1, c2, c3, c4⟩ := channel_consts
  unfold Servo.attachHardware Servo.attachChannel attachTimeBase
  rw [hs, attachClocks_clock]
  simp only [TIM_Cmd, TIM_ARRPreloadConfig, TIM_OC1PreloadConfig, TIM_OC2PreloadConfig,
      TIM_OC3PreloadConfig, TIM_OC4PreloadConfig, TIM_OC1Init, TIM_OC2Init, TIM_OC3Init,
      TIM_OC4Init, TIM_TimeBaseInit]
  split_ifs with h1 h2 h3 h4 <;>
    simp only [onTimer_onTimer] <;> congr 1 <;> funext r <;>
    simp_all [attachTimerRegs]


theorem attachTimerRegs_idem (ch ov ps : Nat) (r : TimRegs) :
    attachTimerRegs ch ov ps (attachTimerRegs ch ov ps r) = attachTimerRegs ch ov ps r := by
  unfold attachTimerRegs
  simp only []
  split_ifs <;> simp [pwm1Config]

theorem attachTimerRegs_counterEnabled (ch ov ps : Nat) (r : TimRegs) (e : Bool) :
    attachTimerRegs ch ov ps { r with counterEnabled := e } = attachTimerRegs ch ov ps r := by
  unfold attachTimerRegs
  simp only []
  split_ifs <;> rfl

theorem attachHardware_clock (b : Board) (s : Servo) (pin : Nat) (hw : Hardware)
    (hs : s.pinInfo b = b.PIN_MAP pin) :
    (s.attachHardware b pin hw).SystemCoreClock = hw.SystemCoreClock := by
  rw [attachHardware_eq b s pin hw hs, onTimer_clock, attachClocks_clock]

/-- The hardware steps of `attach` are idempotent. -/
theorem attachHardware_idem (b : Board) (s : Servo) (pin : Nat) (hw : Hardware)
    (hs : s.pinInfo b = b.PIN_MAP pin) :
    s.attachHardware b pin (s.attachHardware b pin hw) = s.attachHardware b pin hw := by
  rw [attachHardware_eq b s pin (s.attachHardware b pin hw) hs, attachHardware_clock b s pin hw hs,
    attachHardware_eq b s pin hw hs, attachClocks_onTimer, attachClocks_idem, onTimer_onTimer]
  congr 1
  funext r
  exact attachTimerRegs_idem _ _ _ r

/-- The hardware steps of `attach` override the counter enable: a preceding `TIM_Cmd` on
the timer of the pin does not show in the result. -/
theorem attachHardware_TIM_Cmd (b : Board) (s : Servo) (pin : Nat) (hw : Hardware)
    (e : Bool) (hs : s.pinInfo b = b.PIN_MAP pin) :
    s.attachHardware b pin (TIM_Cmd (b.PIN_MAP pin).timer_peripheral e hw) =
      s.attachHardware b pin hw := by
  rw [attachHardware_eq b s pin _ hs, attachHardware_eq b s pin hw hs]
  unfold TIM_Cmd
  rw [onTimer_clock, attachClocks_onTimer, onTimer_onTimer]
  congr 1
  funext r
  exact attachTimerRegs_counterEnabled _ _ _ r e

theorem onTimer_flags (hw : Hardware) (tp : Option TIM_TypeDef) (f : TimRegs → TimRegs) :
    (hw.onTimer tp f).spiEnabled = hw.spiEnabled ∧
    (hw.onTimer tp f).wireEnabled = hw.wireEnabled ∧
    (hw.onTimer tp f).serial1Enabled = hw.serial1Enabled := by
  cases tp <;> exact ⟨rfl, rfl, rfl⟩

theorem attachClocks_flags (b : Board) (pin : Nat) (hw : Hardware) :
    (attachClocks b pin hw).spiEnabled = hw.spiEnabled ∧
    (attachClocks b pin hw).wireEnabled = hw.wireEnabled ∧
    (attachClocks b pin hw).serial1Enabled = hw.serial1Enabled := by
  unfold attachClocks
  simp only []
  split_ifs <;> exact ⟨rfl, rfl, rfl⟩

theorem attachHardware_flags (b : Board) (s : Servo) (pin : Nat) (hw : Hardware)
    (hs : s.pinInfo b = b.PIN_MAP pin) :
    (s.attachHardware b pin hw).spiEnabled = hw.spiEnabled ∧
    (s.attachHardware b pin hw).wireEnabled = hw.wireEnabled ∧
    (s.attachHardware b pin hw).serial1Enabled = hw.serial1Enabled := by
  rw [attachHardware_eq b s pin hw hs]
  obtain ⟨g1, g2, g3⟩ := onTimer_flags (attachClocks b pin hw)
    (b.PIN_MAP pin).timer_peripheral
    (attachTimerRegs (b.PIN_MAP pin).timer_ch (SERVO_OVERFLOW hw.SystemCoreClock)
      (toU16 ((SERVO_PRESCALER hw.SystemCoreClock : Int) - 1)))
  obtain ⟨k1, k2, k3⟩ := attachClocks_flags b pin hw
  exact ⟨g1.trans k1, g2.trans k2, g3.trans k3⟩

/-- The result flag of `attach` depends on the hardware only through the three
bus-enabled flags, and not on the instance or the bounds. -/
theorem attach_flag_congr (b : Board) (s s' : Servo) (hw hw' : Hardware)
    (pin minPW maxPW minPW' maxPW' : Nat) (minAngle maxAngle minAngle' maxAngle' : Int)
    (h1 : hw'.spiEnabled = hw.spiEnabled) (h2 : hw'.wireEnabled = hw.wireEnabled)
    (h3 : hw'.serial1Enabled = hw.serial1Enabled) :
    (s'.attach b hw' pin minPW' maxPW' minAngle' maxAngle').1 =
      (s.attach b hw pin minPW maxPW minAngle maxAngle).1 := by
  unfold Servo.attach
  rw [h1, h2, h3]
  split_ifs <;> rfl

theorem detach_flags (b : Board) (s : Servo) (hw : Hardware) :
    (s.detach b hw).2.2.spiEnabled = hw.spiEnabled ∧
    (s.detach b hw).2.2.wireEnabled = hw.wireEnabled ∧
    (s.detach b hw).2.2.serial1Enabled = hw.serial1Enabled := by
  unfold Servo.detach
  split_ifs
  · exact ⟨rfl, rfl, rfl⟩
  · exact onTimer_flags _ _ _

theorem attachConfigure_eq (b : Board) (s : Servo) (hw : Hardware) (pin minPW maxPW : Nat)
    (minAngle maxAngle : Int) :
    s.attachConfigure b hw pin minPW maxPW minAngle maxAngle =
      (⟨pin, minPW, maxPW, minAngle, maxAngle⟩,
        Servo.attachHardware b ⟨pin, minPW, maxPW, minAngle, maxAngle⟩ pin
          (if s.attached b then (s.detach b hw).2 else (s, hw)).2) := rfl

theorem detach_not_attached (b : Board) (s : Servo) (hw : Hardware) :
    (s.detach b hw).2.1.attached b = false := by
  unfold Servo.detach
  split_ifs with h
  · simpa using h
  · simp [Servo.resetFields, Servo.attached]

/-- C14: for every instance and all arguments that pass the checks of `attach`,
`attach(args)` produces the same result, instance fields and hardware state as `detach()`
followed by `attach(args)`; and performing the same successful `attach` a second time
right after the first leaves the state of the first. -/
theorem reattach_idempotent (b : Board) (s : Servo) (hw : Hardware) (pin minPW maxPW : Nat)
    (minAngle maxAngle : Int)
    (hok : (s.attach b hw pin minPW maxPW minAngle maxAngle).1 = true) :
    s.attach b hw pin minPW maxPW minAngle maxAngle =
      (s.detach b hw).2.1.attach b (s.detach b hw).2.2 pin minPW maxPW minAngle maxAngle ∧
    (s.attach b hw pin minPW maxPW minAngle maxAngle).2.1.attach b
      (s.attach b hw pin minPW maxPW minAngle maxAngle).2.2 pin minPW maxPW minAngle maxAngle
      = s.attach b hw pin minPW maxPW minAngle maxAngle := by
  have hpi := pinInfo_set_pin b pin minPW maxPW minAngle maxAngle
  have ha := attach_of_true b s hw pin minPW maxPW minAngle maxAngle hok
  constructor
  · -- the implicit detach of `attach` is the explicit one
    obtain ⟨f1, f2, f3⟩ := detach_flags b s hw
    have hok2 : ((s.detach b hw).2.1.attach b (s.detach b hw).2.2 pin minPW maxPW minAngle
        maxAngle).1 = true := by
      rw [attach_flag_congr b s _ hw _ pin minPW maxPW minPW maxPW minAngle maxAngle minAngle
        maxAngle f1 f2 f3]
      exact hok
    rw [ha, attach_of_true b _ _ pin minPW maxPW minAngle maxAngle hok2, attachConfigure_eq,
      attachConfigure_eq, detach_not_attached]
    by_cases hatt : s.attached b = true
    · simp [hatt]
    · have hatt2 : s.attached b = false := by simpa using hatt
      simp [hatt2, detach_detached b s hw hatt2]
  · -- the second `attach` reproduces the state of the first
    have hf0 : (if s.attached b = true then (s.detach b hw).2 else (s, hw)).2.spiEnabled
          = hw.spiEnabled ∧
        (if s.attached b = true then (s.detach b hw).2 else (s, hw)).2.wireEnabled
          = hw.wireEnabled ∧
        (if s.attached b = true then (s.detach b hw).2 else (s, hw)).2.serial1Enabled
          = hw.serial1Enabled := by
      split_ifs
      · exact detach_flags b s hw
      · exact ⟨rfl, rfl, rfl⟩
    rw [ha, attachConfigure_eq]
    generalize (if s.attached b = true then (s.detach b hw).2 else (s, hw)).2 = hw0 at hf0
    obtain ⟨f1, f2, f3⟩ := hf0
    obtain ⟨g1, g2, g3⟩ := attachHardware_flags b ⟨pin, minPW, maxPW, minAngle, maxAngle⟩ pin
      hw0 hpi
    have hok2 : ((⟨pin, minPW, maxPW, minAngle, maxAngle⟩ : Servo).attach b
        (Servo.attachHardware b ⟨pin, minPW, maxPW, minAngle, maxAngle⟩ pin hw0)
        pin minPW maxPW minAngle maxAngle).1 = true := by
      rw [attach_flag_congr b s _ hw _ pin minPW maxPW minPW maxPW minAngle maxAngle minAngle
        maxAngle (g1.trans f1) (g2.trans f2) (g3.trans f3)]
      exact hok
    show (⟨pin, minPW, maxPW, minAngle, maxAngle⟩ : Servo).attach b
        (Servo.attachHardware b ⟨pin, minPW, maxPW, minAngle, maxAngle⟩ pin hw0)
        pin minPW maxPW minAngle maxAngle = _
    rw [attach_of_true b _ _ pin minPW maxPW minAngle maxAngle hok2, attachConfigure_eq]
    by_cases hatt : (⟨pin, minPW, maxPW, minAngle, maxAngle⟩ : Servo).attached b = true
    · have hd : ((⟨pin, minPW, maxPW, minAngle, maxAngle⟩ : Servo).detach b
          (Servo.attachHardware b ⟨pin, minPW, maxPW, minAngle, maxAngle⟩ pin hw0)).2.2 =
          TIM_Cmd (b.PIN_MAP pin).timer_peripheral false
            (Servo.attachHardware b ⟨pin, minPW, maxPW, minAngle, maxAngle⟩ pin hw0) := by
        unfold Servo.detach
        rw [hatt, hpi]
        rfl
      rw [if_pos hatt, hd, attachHardware_TIM_Cmd b _ pin _ false hpi,
        attachHardware_idem b _ pin hw0 hpi]
    · rw [if_neg hatt, attachHardware_idem b _ pin hw0 hpi]

/-- Witness of C14: re-attaching a servo, attached to pin `A0`, to pin `A5`. -/
theorem reattach_idempotent_witness :
    (⟨10, 544, 2400, 0, 180⟩ : Servo).attached sparkCore = true ∧
    ((⟨10, 544, 2400, 0, 180⟩ : Servo).attach sparkCore (resetHardware 72000000) 15 600
      2300 0 90).1 = true ∧
    (⟨10, 544, 2400, 0, 180⟩ : Servo).attach sparkCore (resetHardware 72000000) 15 600
        2300 0 90 =
      ((⟨10, 544, 2400, 0, 180⟩ : Servo).detach sparkCore
        (resetHardware 72000000)).2.1.attach sparkCore
        ((⟨10, 544, 2400, 0, 180⟩ : Servo).detach sparkCore (resetHardware 72000000)).2.2
        15 600 2300 0 90 :=
  ⟨rfl, rfl, (reattach_idempotent sparkCore ⟨10, 544, 2400, 0, 180⟩ (resetHardware 72000000)
    15 600 2300 0 90 rfl).1⟩

end SparkServo
